import Mathlib

set_option maxHeartbeats 1000000
set_option synthInstance.maxHeartbeats 400000
set_option linter.unusedTactic false
set_option linter.unreachableTactic false

/-!
Shallow embedding of the postgres schema compiler of
`src/packages/drizzle/src/postgres/schema/traverseFields.ts`.

The field tree walker `traverseFields` is translated statement by statement
from the source.  JavaScript `Record`/`Map` registries become association
lists with JavaScript object-assignment semantics (`setKV`: overwrite in
place, else append), JavaScript `Set`s become duplicate-free lists
(`addSet`), and the single mutable compilation session threaded by
reference through the recursion becomes an explicit state record `TState`
passed through an `Except`-valued fold.  The collaborators of the walker
that live outside `src/` (`buildTable`, `createTableName`, `createIndex`,
`buildIndexName`, `idToUUID`, `hasLocalesTable`,
`validateExistingBlockIsIdentical`, the npm `to-snake-case` package) are
modelled from the spec; each carries a doc comment saying what is
modelled.
-/

namespace PayloadDB

/-- Key-value lookup in an association list (JavaScript `record[key]` /
`Map.get`). -/
def getKV {α : Type} : List (String × α) → String → Option α
  | [], _ => none
  | (k', v) :: rest, k => if k' = k then some v else getKV rest k

/-- Key-value update with JavaScript object-assignment / `Map.set`
semantics: an existing key is overwritten in place, a new key is appended
at the end. -/
def setKV {α : Type} : List (String × α) → String → α → List (String × α)
  | [], k, v => [(k, v)]
  | (k', v') :: rest, k, v =>
    if k' = k then (k, v) :: rest else (k', v') :: setKV rest k v

/-- Update the value at a key when present, leave the list unchanged when
absent (JavaScript `record[key].mutate()` guarded by a truthiness check). -/
def updKV {α : Type} : List (String × α) → String → (α → α) → List (String × α)
  | [], _, _ => []
  | (k', v') :: rest, k, f =>
    if k' = k then (k', f v') :: rest else (k', v') :: updKV rest k f

/-- JavaScript `Set.add`: append when absent, keep unchanged when present. -/
def addSet (l : List String) (x : String) : List String :=
  if x ∈ l then l else l ++ [x]

/-- JavaScript `String.prototype.replace('.', '_')`: replace only the first
occurrence (used on `fieldPrefix`, which holds at most one dot). -/
def replaceFirstDotAux : List Char → List Char
  | [] => []
  | c :: cs => if c = '.' then '_' :: cs else c :: replaceFirstDotAux cs

def replaceFirstDot (s : String) : String := ⟨replaceFirstDotAux s.toList⟩

/-- Word-splitting step of snake-case conversion: an upper-case letter
opens a new word, separator characters become underscores. -/
def snakeAux : List Char → List Char
  | [] => []
  | c :: cs =>
    if c.isUpper then '_' :: c.toLower :: snakeAux cs
    else if c = '_' || c = ' ' || c = '-' then '_' :: snakeAux cs
    else c :: snakeAux cs

/-- Collapse runs of underscores to a single underscore. -/
def collapseUnd : List Char → List Char
  | [] => []
  | [c] => [c]
  | c₁ :: c₂ :: rest =>
    if c₁ = '_' && c₂ = '_' then collapseUnd (c₂ :: rest)
    else c₁ :: collapseUnd (c₂ :: rest)

def trimUnd (l : List Char) : List Char :=
  ((l.dropWhile (· = '_')).reverse.dropWhile (· = '_')).reverse

/-- Modelled from the spec: the npm `to-snake-case` package used for every
derived identifier.  Case boundaries and separator characters delimit
words, words are joined with `_` and lower-cased; leading and trailing
separators are dropped.  On the all-lower-case names used in this
development it is the identity. -/
def toSnakeCase (s : String) : String := ⟨trimUnd (collapseUnd (snakeAux s.toList))⟩

/-- The id column types of `IDType` in `../types.js`: `integer`, `uuid`,
`numeric`, `varchar`. -/
inductive IDType : Type where
  | integer
  | uuid
  | numeric
  | varchar
  deriving DecidableEq, Repr

/-- The drizzle column builders that `traverseFields` emits.  `idCol`-style
columns produced by `parentIDColumnMap` reuse the ordinary `integer` /
`uuid` / `numeric` / `varchar` builders, which is what the
`instanceof PgUUIDBuilder` tests in the source rely on. -/
inductive ColType : Type where
  | boolean
  | varchar
  | integer
  | uuid
  | numeric
  | timestampTZ
  | jsonb
  | geometry
  | textCol
  | enumT (enumName : String)
  deriving DecidableEq, Repr

/-- `parentIDColumnMap` of `./parentIDColumnMap.js`: id type to column
builder. -/
def parentIDColumnMap : IDType → ColType
  | .integer => .integer
  | .uuid => .uuid
  | .numeric => .numeric
  | .varchar => .varchar

/-- One emitted column: its SQL name, builder type, `notNull` flag, and the
table whose `id` column it `references` (foreign keys only). -/
structure Col where
  sqlName : String
  ty : ColType
  notNull : Bool
  references : Option String
  deriving DecidableEq, Repr

/-- One emitted index: derived index name, the field names it is `on`, and
whether it is unique (`createIndex` of `./createIndex.js`, modelled from
its call site and the spec). -/
structure IndexDef where
  indexName : String
  onCols : List String
  unique : Bool
  deriving DecidableEq, Repr

/-- Table-level extra config entries (`BaseExtraConfig`): plain indexes and
foreign keys to another table's id column. -/
inductive ExtraCfg : Type where
  | idx (name : String) (onCols : List String)
  | fk (name : String) (cols : List String) (foreignTable : String)
  deriving DecidableEq, Repr

/-- Relation cardinality of a `RelationMap` entry. -/
inductive RelType : Type where
  | one
  | many
  deriving DecidableEq, Repr

/-- One `RelationMap` entry: `{ type, localized, target }`. -/
structure RelationDesc where
  relType : RelType
  localized : Bool
  target : String
  deriving DecidableEq, Repr

/-- One entry of a drizzle `relations(...)` registration: for `one`, the
target table, the table holding the foreign-key column, and the relation
name; for `many`, the target table and relation name. -/
inductive RelEntry : Type where
  | one (target : String) (fieldsTable : String) (relationName : String)
  | many (target : String) (relationName : String)
  deriving DecidableEq, Repr

/-- A registered physical table: columns keyed by field name, indexes,
table-level extra config, and for block tables the structural fingerprint
taken at build time (spec: canonical structural fingerprint computed once
at build time; reuse requires fingerprint equality). -/
structure TableSpec where
  columns : List (String × Col)
  indexes : List (String × IndexDef)
  extraConfig : List (String × ExtraCfg)
  fingerprint : Option String
  deriving DecidableEq, Repr

/-- The tri-state `'index' | boolean` flags of the walker's `Result`. -/
inductive ManyFlag : Type where
  | off
  | on
  | idx
  deriving DecidableEq, Repr

/-- The `Result` record returned by `traverseFields`. -/
structure Res where
  hasLocalizedField : Bool
  hasLocalizedManyNumberField : Bool
  hasLocalizedManyTextField : Bool
  hasLocalizedRelationshipField : Bool
  hasManyNumberField : ManyFlag
  hasManyTextField : ManyFlag
  deriving DecidableEq, Repr

def resInit : Res :=
  { hasLocalizedField := false
    hasLocalizedManyNumberField := false
    hasLocalizedManyTextField := false
    hasLocalizedRelationshipField := false
    hasManyNumberField := .off
    hasManyTextField := .off }

/-- The compilation errors of the walker: the source throws
`InvalidConfiguration` with a message. -/
inductive Err : Type where
  | invalidConfiguration (msg : String)
  deriving DecidableEq, Repr

/-- Target of a relationship/upload field: a single collection slug or a
polymorphic array of slugs (`Array.isArray(field.relationTo)`). -/
inductive RelTo : Type where
  | single (slug : String)
  | poly (slugs : List String)
  deriving DecidableEq, Repr

mutual
/-- The tagged field kinds dispatched by the `switch` of `traverseFields`.
Source cases that share one `case` body share one constructor:
`codeEmailTextarea` is `case 'code': case 'email': case 'textarea'`,
`jsonRichText` is `case 'json': case 'richText'`, `rowOrCollapsible` is
`case 'collapsible': case 'row'`, `group` is `case 'group': case 'tab'`
(a named tab is traversed as a group), and `relationship` also covers
`upload`.  The `tabs` constructor holds the tab list already converted by
`field.tabs.map(tab => ({...tab, type: 'tab'}))`. -/
inductive FieldType : Type where
  | text (hasMany : Bool)
  | number (hasMany : Bool)
  | checkbox
  | codeEmailTextarea
  | date
  | jsonRichText
  | point
  | radio (options : List String)
  | select (hasMany : Bool) (options : List String)
  | relationship (relationTo : RelTo) (hasMany : Bool)
  | group (fields : List Field)
  | rowOrCollapsible (fields : List Field)
  | tabs (tabs : List Field)
  | array (fields : List Field)
  | blocks (blocks : List BlockCfg)

/-- A field node: optional name (layout fields have none), the boolean
modifiers read by the walker (`localized`, `unique`, `index`, `required`,
virtual, presence of `admin.condition`), and the kind. -/
inductive Field : Type where
  | mk (name : Option String) (localized : Bool) (unique : Bool)
       (hasIndex : Bool) (required : Bool) (isVirtual : Bool)
       (condition : Bool) (ty : FieldType)

/-- One block shape: its slug and field list. -/
inductive BlockCfg : Type where
  | mk (slug : String) (fields : List Field)
end

def Field.name : Field → Option String
  | .mk n _ _ _ _ _ _ _ => n

def Field.localized : Field → Bool
  | .mk _ l _ _ _ _ _ _ => l

def Field.unique : Field → Bool
  | .mk _ _ u _ _ _ _ _ => u

def Field.hasIndex : Field → Bool
  | .mk _ _ _ i _ _ _ _ => i

def Field.required : Field → Bool
  | .mk _ _ _ _ r _ _ _ => r

def Field.isVirtual : Field → Bool
  | .mk _ _ _ _ _ v _ _ => v

def Field.condition : Field → Bool
  | .mk _ _ _ _ _ _ c _ => c

def Field.ty : Field → FieldType
  | .mk _ _ _ _ _ _ _ t => t

def BlockCfg.slug : BlockCfg → String
  | .mk s _ => s

def BlockCfg.fields : BlockCfg → List Field
  | .mk _ fs => fs

/-- `fieldAffectsData`: the field has a name of its own (layout fields —
rows, collapsibles, tab sets, unnamed groups/tabs — do not). -/
def fieldAffectsData (f : Field) : Bool := f.name.isSome

/-- `fieldIsVirtual` of `payload/shared`. -/
def fieldIsVirtual (f : Field) : Bool := f.isVirtual

/-- `field.hasMany === true`: kinds carrying a `hasMany` property report
it, all other kinds have no such property (so the check is false). -/
def hasManyTrue : FieldType → Bool
  | .text hm => hm
  | .number hm => hm
  | .select hm _ => hm
  | .relationship _ hm => hm
  | _ => false

def tyIsArray : FieldType → Bool
  | .array _ => true
  | _ => false

def tyIsBlocks : FieldType → Bool
  | .blocks _ => true
  | _ => false

/-- `['array', 'blocks', 'group'].includes(field.type)` — the merged
`group` constructor is excluded like the source's `'group'`; a named tab
never carries `unique`/`index`, so the difference is unobservable. -/
def tyIsGroupLike : FieldType → Bool
  | .group _ => true
  | _ => false

def tyIsRelOrUpload : FieldType → Bool
  | .relationship _ _ => true
  | _ => false

def tyIsPolyRel : FieldType → Bool
  | .relationship (.poly _) _ => true
  | _ => false

/-- Immutable adapter capabilities and process configuration consumed by
the walker: the localization capability flag
(`adapter.payload.config.localization`), the adapter id type test
(`adapter.idType === 'uuid'`), `adapter.localesSuffix`,
`process.env.NODE_ENV === 'production'`, the collection configs
(`adapter.payload.collections[slug].config.fields`) and
`adapter.tableNameMap`. -/
structure AdapterCfg where
  localization : Bool
  idTypeIsUUID : Bool
  localesSuffix : String
  prodEnv : Bool
  collections : List (String × List Field)
  tableNameMap : List (String × String)

/-- The mutable registries of the adapter context shared across the whole
compilation pass: `adapter.tables`, `adapter.enums`, `adapter.relations`,
`adapter.fieldConstraints`, `adapter.extensions.postgis`. -/
structure AdapterState where
  tables : List (String × TableSpec)
  enums : List (String × List String)
  relations : List (String × List (String × RelEntry))
  fieldConstraints : List (String × List (String × String))
  postgis : Bool
  deriving DecidableEq, Repr

/-- The mutable state threaded by reference through the recursion: the
adapter context plus the per-table registries (`columns`, `indexes`,
`localesColumns`, `localesIndexes`, `relationsToBuild`) and the root-scoped
registries (`rootRelationsToBuild`, `relationships`,
`uniqueRelationships`). -/
structure TState where
  adapter : AdapterState
  columns : List (String × Col)
  indexes : List (String × IndexDef)
  localesColumns : List (String × Col)
  localesIndexes : List (String × IndexDef)
  relationsToBuild : List (String × RelationDesc)
  rootRelationsToBuild : List (String × RelationDesc)
  relationships : List String
  uniqueRelationships : List String
  deriving DecidableEq, Repr

/-- The non-registry arguments of `traverseFields` (`Args` minus the
registries, which live in `TState`): `columnPfx`/`fieldPfx` embed
`columnPrefix`/`fieldPrefix` (absent prefixes are the empty string). -/
structure Ctx where
  cfg : AdapterCfg
  columnPfx : String
  fieldPfx : String
  disableNotNull : Bool
  disableRelsTableUnique : Bool
  disableUnique : Bool
  forceLocalized : Bool
  newTableName : String
  parentTableName : String
  rootTableIDColType : IDType
  rootTableName : String
  versions : Bool
  withinLocalizedArrayOrBlock : Bool

/-- `columns.id instanceof Pg...Builder` dispatch at the top of
`traverseFields`: derive the parent id column type from the `id` entry of
the `columns` record, defaulting to `integer`. -/
def parentIDTypeOf (columns : List (String × Col)) : IDType :=
  match getKV columns "id" with
  | none => .integer
  | some c =>
    match c.ty with
    | .uuid => .uuid
    | .numeric => .numeric
    | .varchar => .varchar
    | _ => .integer

/-- `columnName`: column prefix, a literal `_` re-added for names starting
with `_` (snake-casing strips it), then the snake-cased field name. -/
def columnNameOf (ctx : Ctx) (name : String) : String :=
  ctx.columnPfx ++ (if name.toList.head? = some '_' then "_" else "") ++ toSnakeCase name

/-- `fieldName`: the field prefix with its (single) dot replaced by `_`,
then the raw field name. -/
def fieldNameOf (ctx : Ctx) (name : String) : String :=
  replaceFirstDot ctx.fieldPfx ++ name

/-- Modelled from the spec: `buildIndexName` of
`../../utilities/buildIndexName.js`, the naming-service derivation of an
index identifier from a table-qualified column name (the disambiguation
counter for colliding names is not exercised here). -/
def buildIndexName (name : String) : String := name ++ "_idx"

/-- Flag merge used after `row`/`collapsible`, named and unnamed
`group`/`tab` and `tabs` recursion: each boolean flag is or-ed, and a
truthy tri-state sub-flag sets the accumulator to plain `true` (the source
writes `hasManyTextField = true`, discarding a previous `'index'`). -/
def mergeTruthy (acc sub : Res) : Res :=
  { hasLocalizedField := acc.hasLocalizedField || sub.hasLocalizedField
    hasLocalizedManyNumberField :=
      acc.hasLocalizedManyNumberField || sub.hasLocalizedManyNumberField
    hasLocalizedManyTextField :=
      acc.hasLocalizedManyTextField || sub.hasLocalizedManyTextField
    hasLocalizedRelationshipField :=
      acc.hasLocalizedRelationshipField || sub.hasLocalizedRelationshipField
    hasManyNumberField := if sub.hasManyNumberField ≠ .off then .on else acc.hasManyNumberField
    hasManyTextField := if sub.hasManyTextField ≠ .off then .on else acc.hasManyTextField }

/-- Tri-state merge used after `array`/`blocks` child-table builds:
`if (sub) { if (!acc || sub === 'index') acc = sub }`. -/
def mergeMany (acc sub : ManyFlag) : ManyFlag :=
  match sub with
  | .off => acc
  | s => if acc = .off ∨ s = .idx then s else acc

/-- Flag merge used after `array`/`blocks` child-table builds; the child
table keeps its own `hasLocalizedField`, which is not merged upward. -/
def mergeSubTable (acc sub : Res) : Res :=
  { hasLocalizedField := acc.hasLocalizedField
    hasLocalizedManyNumberField :=
      acc.hasLocalizedManyNumberField || sub.hasLocalizedManyNumberField
    hasLocalizedManyTextField :=
      acc.hasLocalizedManyTextField || sub.hasLocalizedManyTextField
    hasLocalizedRelationshipField :=
      acc.hasLocalizedRelationshipField || sub.hasLocalizedRelationshipField
    hasManyNumberField := mergeMany acc.hasManyNumberField sub.hasManyNumberField
    hasManyTextField := mergeMany acc.hasManyTextField sub.hasManyTextField }

/-- Modelled from the spec: the renaming step of `idToUUID` of
`./idToUUID.js` — an explicit custom `id` field is renamed to `_uuid` so a
version child table keeps its generated id column. -/
def idRename (f : Field) : Field :=
  match f with
  | .mk n l u i r v c ty =>
    if n = some "id" then .mk (some "_uuid") l u i r v c ty
    else .mk n l u i r v c ty

/-- Modelled from the spec: `idToUUID` of `./idToUUID.js`, applied to child
table field lists when uniqueness is disabled (version tables). -/
def idToUUID (fields : List Field) : List Field := fields.map idRename

/-- Modelled from the spec: `hasLocalesTable` of
`../../utilities/hasLocalesTable.js` — whether a locale sibling table
exists for a field list, i.e. some field of the subtree (looking through
groups, rows, tab sets and arrays, but not into block shapes) is a named
localized field. -/
def hasLocalesTable : List Field → Bool
  | [] => false
  | f :: rest =>
    (match f with
     | .mk n l _ _ _ _ _ ty =>
       (n.isSome && l) ||
       (match ty with
        | .group fs => hasLocalesTable fs
        | .rowOrCollapsible fs => hasLocalesTable fs
        | .tabs fs => hasLocalesTable fs
        | .array fs => hasLocalesTable fs
        | _ => false)) ||
    hasLocalesTable rest

mutual
/-- Canonical structural encoding of a field, used as the block-shape
fingerprint (spec: represent each table's shape as a canonical structural
fingerprint computed once at build time). -/
def encodeField : Field → String
  | .mk n l u i r v c ty =>
    "f<" ++ (match n with | none => "-" | some s => s) ++ "," ++
    (if l then "1" else "0") ++ (if u then "1" else "0") ++
    (if i then "1" else "0") ++ (if r then "1" else "0") ++
    (if v then "1" else "0") ++ (if c then "1" else "0") ++ "," ++
    encodeFieldType ty ++ ">"

def encodeFieldType : FieldType → String
  | .text hm => "text" ++ (if hm then "+" else "")
  | .number hm => "number" ++ (if hm then "+" else "")
  | .checkbox => "checkbox"
  | .codeEmailTextarea => "codeEmailTextarea"
  | .date => "date"
  | .jsonRichText => "jsonRichText"
  | .point => "point"
  | .radio opts => "radio[" ++ String.intercalate "," opts ++ "]"
  | .select hm opts =>
    "select" ++ (if hm then "+" else "") ++ "[" ++ String.intercalate "," opts ++ "]"
  | .relationship (.single s) hm => "rel(" ++ s ++ ")" ++ (if hm then "+" else "")
  | .relationship (.poly ss) hm =>
    "rel(" ++ String.intercalate "|" ss ++ ")" ++ (if hm then "+" else "")
  | .group fs => "group[" ++ encodeFields fs ++ "]"
  | .rowOrCollapsible fs => "row[" ++ encodeFields fs ++ "]"
  | .tabs fs => "tabs[" ++ encodeFields fs ++ "]"
  | .array fs => "array[" ++ encodeFields fs ++ "]"
  | .blocks bs => "blocks[" ++ encodeBlocks bs ++ "]"

def encodeFields : List Field → String
  | [] => ""
  | f :: rest => encodeField f ++ ";" ++ encodeFields rest

def encodeBlocks : List BlockCfg → String
  | [] => ""
  | .mk slug fs :: rest => "b<" ++ slug ++ ":" ++ encodeFields fs ++ ">" ++ encodeBlocks rest
end

/-- The structural fingerprint of one block-shape occurrence: its field
list plus whether the occurrence is localized (a localized occurrence has
an extra `_locale` column). -/
def blockFingerprint (fields : List Field) (isLocalized : Bool) : String :=
  encodeFields fields ++ (if isLocalized then "|localized" else "")

/-- Message of the modelled block-shape mismatch error of
`validateExistingBlockIsIdentical` (the model does not interpolate the
block slug into the message). -/
def blockMismatchMsg (slug : String) : String :=
  "The block has multiple differing configurations defined. " ++
  "Block configs must be identical across the config."

/-- Message of the `InvalidConfiguration` thrown for `hasMany` text fields
with `unique`. -/
def uniqueManyTextMsg : String :=
  "Unique is not supported in Postgres for hasMany text fields."

/-- Message of the `InvalidConfiguration` thrown for `hasMany` number
fields with `unique`. -/
def uniqueManyNumberMsg : String :=
  "Unique is not supported in Postgres for hasMany number fields."

mutual
/-- Structural size of a field, ignoring strings (so that the `idToUUID`
rename preserves it); termination measure of the walker. -/
def fsize : Field → Nat
  | .mk _ _ _ _ _ _ _ ty => 2 + tsize ty

def tsize : FieldType → Nat
  | .group fs => 1 + fssize fs
  | .rowOrCollapsible fs => 1 + fssize fs
  | .tabs fs => 1 + fssize fs
  | .array fs => 1 + fssize fs
  | .blocks bs => 1 + bssize bs
  | _ => 1

def fssize : List Field → Nat
  | [] => 0
  | f :: rest => 1 + fsize f + fssize rest

def bssize : List BlockCfg → Nat
  | [] => 0
  | .mk _ fs :: rest => 1 + fssize fs + bssize rest
end

theorem fsize_idRename (f : Field) : fsize (idRename f) = fsize f := by
  cases f with
  | mk n l u i r v c ty => simp only [idRename, fsize]; split <;> rfl

theorem fssize_idToUUID (fs : List Field) : fssize (idToUUID fs) = fssize fs := by
  induction fs with
  | nil => rfl
  | cons f rest ih =>
    simp only [idToUUID, List.map] at ih ⊢
    simp only [fssize, fsize_idRename, ih]

/-- `routeLocale`: the localized-routing test of `traverseFields` — the
column goes to the locale table when localization is enabled, the field
(or an enclosing named group) is localized, the field is not an array or
blocks field, and it is not `hasMany === true`. -/
def routeLocale (ctx : Ctx) (localized : Bool) (ty : FieldType) : Bool :=
  ctx.cfg.localization && (localized || ctx.forceLocalized) &&
  !tyIsArray ty && !tyIsBlocks ty && !hasManyTrue ty

/-- `adapter.fieldConstraints[rootTableName][key] = value`, creating the
per-root record on first use. -/
def addFieldConstraint (fc : List (String × List (String × String)))
    (root key value : String) : List (String × List (String × String)) :=
  match getKV fc root with
  | none => setKV fc root [(key, value)]
  | some m => setKV fc root (setKV m key value)

/-- The unique/index emission step of `traverseFields` (run for every
data-affecting field): when the field is unique, indexed, or a
relationship/upload — and is not an array/blocks/group, not
`hasMany === true`, and not polymorphic — record the unique field
constraint (when unique survives `disableUnique`) and add an index to the
index record of the table holding the column. -/
def indexStep (ctx : Ctx) (route localized unique hasIndex : Bool)
    (ty : FieldType) (name columnName fieldName : String) (st : TState) : TState :=
  if (unique || hasIndex || tyIsRelOrUpload ty) &&
     !tyIsArray ty && !tyIsBlocks ty && !tyIsGroupLike ty &&
     !hasManyTrue ty && !tyIsPolyRel ty then
    let uniq := !ctx.disableUnique && unique
    let st₁ :=
      if uniq then
        let fc := addFieldConstraint st.adapter.fieldConstraints ctx.rootTableName
            (columnName ++ "_idx") (ctx.fieldPfx ++ name)
        { st with adapter := { st.adapter with fieldConstraints := fc } }
      else st
    let indexName := buildIndexName (ctx.newTableName ++ "_" ++ columnName)
    let idef : IndexDef :=
      ⟨indexName, if localized then [fieldName, "_locale"] else [fieldName], uniq⟩
    if route then { st₁ with localesIndexes := setKV st₁.localesIndexes indexName idef }
    else { st₁ with indexes := setKV st₁.indexes indexName idef }
  else st

/-- `targetTable[fieldName] = column`: add a column to the table chosen by
the localized routing (the source's `withDefault` wrapper applies the
field's default value, which the embedding does not track). -/
def addRoutedCol (route : Bool) (st : TState) (fieldName : String) (c : Col) : TState :=
  if route then { st with localesColumns := setKV st.localesColumns fieldName c }
  else { st with columns := setKV st.columns fieldName c }

/-- The trailing not-null step of `traverseFields`: when not-null
enforcement is enabled, the routed table has a column for the field, the
field is required and has no display condition, mark that column
non-nullable. -/
def applyRequired (ctx : Ctx) (route affects required condition : Bool)
    (fieldName : String) (st : TState) : TState :=
  if !ctx.disableNotNull && affects && required && !condition then
    if route then
      let lc := updKV st.localesColumns fieldName (fun c => { c with notNull := true })
      { st with localesColumns := lc }
    else
      let bc := updKV st.columns fieldName (fun c => { c with notNull := true })
      { st with columns := bc }
  else st

/-- Modelled from the spec: `createTableName` of `../../createTableName.js`
(naming service) — derived name is the given prefix followed by the
snake-cased config name.  Custom db names, version suffixing and
truncation/hashing of over-long identifiers are not exercised here. -/
def createTableNameM (pre nm : String) : String := pre ++ toSnakeCase nm

/-- The `subRelationsToBuild.forEach` body shared by the array/blocks
relation registrations: a `one` entry reads the foreign-key column from
the child table (or its locale sibling when the relation is localized), a
`many` entry just names the target. -/
def subRelEntries (tableName suffix : String)
    (subRels : List (String × RelationDesc)) : List (String × RelEntry) :=
  subRels.map fun kv =>
    match kv.2.relType with
    | .one => (kv.1, .one kv.2.target
        (if kv.2.localized then tableName ++ suffix else tableName) kv.1)
    | .many => (kv.1, .many kv.2.target kv.1)

/-- Map the truthy flag-merge over a recursion result (the shared
row/group/tabs postlude). -/
def mapTruthy (acc : Res) (r : Except Err (TState × Res)) : Except Err (TState × Res) :=
  match r with
  | .error e => .error e
  | .ok (st', sub) => .ok (st', mergeTruthy acc sub)

/-- Recursion context for `row`/`collapsible` and `tabs`: not-null
enforcement weakened by a display condition; `disableRelsTableUnique` is
not forwarded by the source and so resets to its default. -/
def rowTabsCtx (ctx : Ctx) (dnlFromHere : Bool) : Ctx :=
  { ctx with disableNotNull := dnlFromHere, disableRelsTableUnique := false }

/-- Recursion context for an unnamed group/tab: everything unchanged
(`disableNotNull` is passed unmodified); `disableRelsTableUnique` is not
forwarded and resets. -/
def unnamedGroupCtx (ctx : Ctx) : Ctx :=
  { ctx with disableRelsTableUnique := false }

/-- Recursion context for a named group/tab: extended column prefix and
field-path prefix, `newTableName` rebased on the parent table, forced
localization from the group's own `localized` flag, and the
within-localized marker or-ed with it. -/
def namedGroupCtx (ctx : Ctx) (localized dnlFromHere : Bool)
    (columnName fieldName : String) : Ctx :=
  { ctx with
    columnPfx := columnName ++ "_"
    fieldPfx := fieldName ++ "."
    disableNotNull := dnlFromHere
    disableRelsTableUnique := false
    forceLocalized := localized
    newTableName := ctx.parentTableName ++ "_" ++ columnName
    withinLocalizedArrayOrBlock := ctx.withinLocalizedArrayOrBlock || localized }

/-- The `isLocalized` computation shared by the array/blocks/select/text/
number cases. -/
def isLocalizedHere (ctx : Ctx) (localized : Bool) : Bool :=
  (localized && ctx.cfg.localization) || ctx.withinLocalizedArrayOrBlock || ctx.forceLocalized

/-- The `hasMany` text case: set the localized-many flag, update the
tri-state many-text flag (an indexed field records `'index'`), and reject
`unique` with an `InvalidConfiguration`. -/
def manyTextStep (ctx : Ctx) (localized unique hasIndex : Bool) (st : TState)
    (acc : Res) : Except Err (TState × Res) :=
  let isLoc := isLocalizedHere ctx localized
  let acc₂ := if isLoc then { acc with hasLocalizedManyTextField := true } else acc
  let flag := if hasIndex then ManyFlag.idx
    else if acc₂.hasManyTextField = .off then .on else acc₂.hasManyTextField
  let acc₃ := { acc₂ with hasManyTextField := flag }
  if unique then .error (.invalidConfiguration uniqueManyTextMsg) else .ok (st, acc₃)

/-- The `hasMany` number case, symmetric to `manyTextStep`. -/
def manyNumberStep (ctx : Ctx) (localized unique hasIndex : Bool) (st : TState)
    (acc : Res) : Except Err (TState × Res) :=
  let isLoc := isLocalizedHere ctx localized
  let acc₂ := if isLoc then { acc with hasLocalizedManyNumberField := true } else acc
  let flag := if hasIndex then ManyFlag.idx
    else if acc₂.hasManyNumberField = .off then .on else acc₂.hasManyNumberField
  let acc₃ := { acc₂ with hasManyNumberField := flag }
  if unique then .error (.invalidConfiguration uniqueManyNumberMsg) else .ok (st, acc₃)

/-- The id column type of the related collection for a single-target
relationship: `numeric` for a custom number id, `varchar` for a custom
text id, else the adapter default (`uuid` or `integer`). -/
def relatedIDType (cfg : AdapterCfg) (slug : String) : IDType :=
  let relFields := (getKV cfg.collections slug).getD []
  let base : IDType := if cfg.idTypeIsUUID then .uuid else .integer
  match relFields.find? (fun rf => fieldAffectsData rf && rf.name = some "id") with
  | some rf =>
    match rf.ty with
    | .number _ => .numeric
    | .text _ => .varchar
    | _ => base
  | none => base

/-- The whole `relationship`/`upload` case.  Polymorphic and `hasMany`
targets are collected into the root relationship sets (plus the localized
relationship flag); a single target emits a foreign-key column typed by
the related collection's id type, referencing the related table. -/
def relationshipStep (ctx : Ctx) (route localized unique required condition : Bool)
    (relTo : RelTo) (hm : Bool) (columnName fieldName : String) (st : TState)
    (acc : Res) : Except Err (TState × Res) :=
  let locRelFlag : Res :=
    if (localized && ctx.cfg.localization) || ctx.withinLocalizedArrayOrBlock then
      { acc with hasLocalizedRelationshipField := true }
    else acc
  let addRel := fun (s : TState) (slug : String) =>
    let s₁ := { s with relationships := addSet s.relationships slug }
    if unique && !ctx.disableUnique && !ctx.disableRelsTableUnique then
      { s₁ with uniqueRelationships := addSet s₁.uniqueRelationships slug }
    else s₁
  match relTo with
  | .poly slugs => .ok (slugs.foldl addRel st, locRelFlag)
  | .single slug =>
    if hm then .ok (addRel st slug, locRelFlag)
    else
      let tableName := (getKV ctx.cfg.tableNameMap (toSnakeCase slug)).getD ""
      let colType := relatedIDType ctx.cfg slug
      let col₀ : Col := ⟨columnName ++ "_id", parentIDColumnMap colType, false, some tableName⟩
      let col :=
        if !ctx.disableNotNull && required && !condition then { col₀ with notNull := true }
        else col₀
      let st₂ := addRoutedCol route st fieldName col
      let rel₃ := setKV st₂.relationsToBuild fieldName
        ⟨.one, ctx.cfg.localization && (localized || ctx.forceLocalized), tableName⟩
      .ok ({ st₂ with relationsToBuild := rel₃ }, acc)

/-- Register an enum type: `adapter.enums[enumName] = options`. -/
def addEnum (st : TState) (enumName : String) (opts : List String) : TState :=
  let en := setKV st.adapter.enums enumName opts
  { st with adapter := { st.adapter with enums := en } }

/-- Base columns of a `hasMany` select child table:
`(order, parent_id, value[, locale])`. -/
def selectBaseColumns (pidt : IDType) (enumName : String) (isLoc : Bool) :
    List (String × Col) :=
  [("order", ⟨"order", .integer, true, none⟩),
   ("parent", ⟨"parent_id", parentIDColumnMap pidt, true, none⟩),
   ("value", ⟨"value", .enumT enumName, false, none⟩)] ++
  (if isLoc then [("locale", ⟨"locale", .enumT "enum__locales", true, none⟩)] else [])

/-- Extra config of a `hasMany` select child table: order/parent indexes,
parent foreign key, optional locale index, optional value index. -/
def selectBaseExtra (selectTableName parentTableName : String) (isLoc hasIndex : Bool) :
    List (String × ExtraCfg) :=
  [("orderIdx", .idx (selectTableName ++ "_order_idx") ["order"]),
   ("parentFk", .fk (selectTableName ++ "_parent_fk") ["parent"] parentTableName),
   ("parentIdx", .idx (selectTableName ++ "_parent_idx") ["parent"])] ++
  (if isLoc then [("localeIdx", .idx (selectTableName ++ "_locale_idx") ["locale"])] else []) ++
  (if hasIndex then [("value", .idx (selectTableName ++ "_value_idx") ["value"])] else [])

/-- After building a `hasMany` select child table: record the many-relation
under the field path and register the drizzle parent relation. -/
def selectFinish (ctx : Ctx) (fieldName selectTableName : String) (st : TState) : TState :=
  let rel := setKV st.relationsToBuild fieldName ⟨.many, false, selectTableName⟩
  let entries := [("parent", RelEntry.one ctx.parentTableName selectTableName fieldName)]
  let ar := setKV st.adapter.relations ("relations_" ++ selectTableName) entries
  { st with relationsToBuild := rel, adapter := { st.adapter with relations := ar } }

/-- Base columns of an array child table: `(_order, _parent_id[, _locale])`
with the parent id column typed like the enclosing table's id. -/
def arrayBaseColumns (pidt : IDType) (isLoc : Bool) : List (String × Col) :=
  [("_order", ⟨"_order", .integer, true, none⟩),
   ("_parentID", ⟨"_parent_id", parentIDColumnMap pidt, true, none⟩)] ++
  (if isLoc then [("_locale", ⟨"_locale", .enumT "enum__locales", true, none⟩)] else [])

/-- Extra config of an array child table: order index, cascading parent
foreign key, parent index, optional locale index. -/
def arrayBaseExtra (arrayTableName parentTableName : String) (isLoc : Bool) :
    List (String × ExtraCfg) :=
  [("_orderIdx", .idx (arrayTableName ++ "_order_idx") ["_order"]),
   ("_parentIDFk", .fk (arrayTableName ++ "_parent_id_fk") ["_parentID"] parentTableName),
   ("_parentIDIdx", .idx (arrayTableName ++ "_parent_id_idx") ["_parentID"])] ++
  (if isLoc then [("_localeIdx", .idx (arrayTableName ++ "_locale_idx") ["_locale"])] else [])

/-- After building an array child table: record the many-relation under the
field path and register the drizzle relations of the child (parent link,
optional locales link, sub-relations). -/
def arrayFinish (ctx : Ctx) (fieldName arrayTableName : String) (fs : List Field)
    (subRels : List (String × RelationDesc)) (st : TState) : TState :=
  let rel := setKV st.relationsToBuild fieldName ⟨.many, false, arrayTableName⟩
  let entries := ("_parentID", RelEntry.one ctx.parentTableName arrayTableName fieldName) ::
    ((if hasLocalesTable fs then
        [("_locales", RelEntry.many (arrayTableName ++ ctx.cfg.localesSuffix) "_locales")]
      else []) ++
     subRelEntries arrayTableName ctx.cfg.localesSuffix subRels)
  let ar := setKV st.adapter.relations ("relations_" ++ arrayTableName) entries
  { st with relationsToBuild := rel, adapter := { st.adapter with relations := ar } }

/-- Base columns of a block child table:
`(_order, _parent_id, _path[, _locale])` with the parent id column typed
like the root table's id. -/
def blockBaseColumns (rootIDT : IDType) (isLoc : Bool) : List (String × Col) :=
  [("_order", ⟨"_order", .integer, true, none⟩),
   ("_parentID", ⟨"_parent_id", parentIDColumnMap rootIDT, true, none⟩),
   ("_path", ⟨"_path", .textCol, true, none⟩)] ++
  (if isLoc then [("_locale", ⟨"_locale", .enumT "enum__locales", true, none⟩)] else [])

/-- Extra config of a block child table: order/parent/path indexes, a
cascading foreign key to the root table, optional locale index. -/
def blockBaseExtra (blockTableName rootTN : String) (isLoc : Bool) :
    List (String × ExtraCfg) :=
  [("_orderIdx", .idx (blockTableName ++ "_order_idx") ["_order"]),
   ("_parentIdFk", .fk (blockTableName ++ "_parent_id_fk") ["_parentID"] rootTN),
   ("_parentIDIdx", .idx (blockTableName ++ "_parent_id_idx") ["_parentID"]),
   ("_pathIdx", .idx (blockTableName ++ "_path_idx") ["_path"])] ++
  (if isLoc then [("_localeIdx", .idx (blockTableName ++ "_locale_idx") ["_locale"])] else [])

/-- Record the root-scoped many-relation for a block occurrence
(`rootRelationsToBuild.set`), run on every occurrence. -/
def blockRelStep (slug blockTableName : String) (st : TState) : TState :=
  let rr := setKV st.rootRelationsToBuild ("_blocks_" ++ slug)
    ⟨.many, false, blockTableName⟩
  { st with rootRelationsToBuild := rr }

/-- After building a block child table: register the drizzle relations of
the block (root link, optional locales link, sub-relations) and record the
root-scoped many-relation. -/
def blockFinish (ctx : Ctx) (slug blockTableName : String) (bfields : List Field)
    (subRels : List (String × RelationDesc)) (st : TState) : TState :=
  let entries := ("_parentID", RelEntry.one ctx.rootTableName blockTableName
      ("_blocks_" ++ slug)) ::
    ((if hasLocalesTable bfields then
        [("_locales", RelEntry.many (blockTableName ++ ctx.cfg.localesSuffix) "_locales")]
      else []) ++
     subRelEntries blockTableName ctx.cfg.localesSuffix subRels)
  let ar := setKV st.adapter.relations ("relations_" ++ blockTableName) entries
  blockRelStep slug blockTableName { st with adapter := { st.adapter with relations := ar } }

/-- The trailing not-null step mapped over the switch result. -/
def finishField (ctx : Ctx) (route affects required condition : Bool)
    (fieldName : String) (r : Except Err (TState × Res)) : Except Err (TState × Res) :=
  match r with
  | .error e => .error e
  | .ok (st₂, acc₂) =>
    .ok (applyRequired ctx route affects required condition fieldName st₂, acc₂)

/-- Modelled from the spec: the generated id column type of `buildTable` —
the adapter default (`uuid` or serial `integer`), overridden by an
explicit custom `id` field of the table's field list (number id becomes
`numeric`, text id becomes `varchar`). -/
def buildIdTy (cfg : AdapterCfg) (fields : List Field) : ColType :=
  let defaultIdTy : ColType := if cfg.idTypeIsUUID then .uuid else .integer
  match fields.find? (fun f => f.name = some "id") with
  | some f =>
    match f.ty with
    | .number _ => .numeric
    | .text _ => .varchar
    | _ => defaultIdTy
  | none => defaultIdTy

/-- The fresh per-table registries `buildTable` hands to its walk: the id
column plus the base columns, empty indexes and locale registries, an
empty relation map; the adapter context and root-scoped registries are
threaded through. -/
def buildSubSt (idTy : ColType) (baseColumns : List (String × Col)) (st : TState) : TState :=
  { st with
    columns := [("id", ⟨"id", idTy, true, none⟩)] ++ baseColumns
    indexes := []
    localesColumns := []
    localesIndexes := []
    relationsToBuild := [] }

/-- The walk context `buildTable` uses for a child table: empty prefixes,
the new table as both target and parent. -/
def buildCtx (cfg : AdapterCfg) (tableName : String) (dnl drtu du : Bool)
    (rootIDT : IDType) (rootTN : String) (versions withinLoc : Bool) : Ctx :=
  { cfg := cfg
    columnPfx := ""
    fieldPfx := ""
    disableNotNull := dnl
    disableRelsTableUnique := drtu
    disableUnique := du
    forceLocalized := false
    newTableName := tableName
    parentTableName := tableName
    rootTableIDColType := rootIDT
    rootTableName := rootTN
    versions := versions
    withinLocalizedArrayOrBlock := withinLoc }

/-- Modelled from the spec: the registration step of `buildTable` — intern
the walked table spec under its name; when the walk found a localized
field, lazily register the locale sibling table (id, locale discriminator,
parent foreign key, the walked localized columns, and a single-row-per-
(parent, locale) uniqueness constraint).  Returns the caller's state with
the caller's own per-table registries restored and the shared registries
updated. -/
def registerTable (cfg : AdapterCfg) (tableName : String) (idTy : ColType)
    (baseExtraConfig : List (String × ExtraCfg)) (fp : Option String)
    (st st₂ : TState) (res : Res) : TState :=
  let mainSpec : TableSpec := ⟨st₂.columns, st₂.indexes, baseExtraConfig, fp⟩
  let tables₁ := setKV st₂.adapter.tables tableName mainSpec
  let localeTableName := tableName ++ cfg.localesSuffix
  let defaultIdTy : ColType := if cfg.idTypeIsUUID then .uuid else .integer
  let localeSpec : TableSpec :=
    ⟨[("id", ⟨"id", defaultIdTy, true, none⟩),
      ("_locale", ⟨"_locale", .enumT "enum__locales", true, none⟩),
      ("_parentID", ⟨"_parent_id", idTy, true, none⟩)] ++ st₂.localesColumns,
     st₂.localesIndexes,
     [("_localeParent", .idx (localeTableName ++ "_locale_parent_id_unique")
         ["_locale", "_parentID"]),
      ("_parentIdFk", .fk (localeTableName ++ "_parent_id_fk") ["_parentID"] tableName)],
     none⟩
  let tables₂ :=
    if res.hasLocalizedField then setKV tables₁ localeTableName localeSpec else tables₁
  { st with
    adapter := { st₂.adapter with tables := tables₂ }
    relationships := st₂.relationships
    uniqueRelationships := st₂.uniqueRelationships
    rootRelationsToBuild := st₂.rootRelationsToBuild }

/-- All non-container cases of the `switch` of `traverseFields` (scalar
columns, multi-valued text/number, radio/select enums, relationships).  A
`hasMany` select never reaches this helper — the dispatcher routes it to
its child-table builder — so the select branch here only emits the enum
column. -/
def plainCase (ctx : Ctx) (route localized unique hasIndex required condition : Bool)
    (name columnName fieldName : String) (ty : FieldType) (st : TState) (acc : Res) :
    Except Err (TState × Res) :=
  match ty with
  | .text hm =>
    if hm then manyTextStep ctx localized unique hasIndex st acc
    else .ok (addRoutedCol route st fieldName ⟨columnName, .varchar, false, none⟩, acc)
  | .number hm =>
    if hm then manyNumberStep ctx localized unique hasIndex st acc
    else .ok (addRoutedCol route st fieldName ⟨columnName, .numeric, false, none⟩, acc)
  | .checkbox =>
    .ok (addRoutedCol route st fieldName ⟨columnName, .boolean, false, none⟩, acc)
  | .codeEmailTextarea =>
    .ok (addRoutedCol route st fieldName ⟨columnName, .varchar, false, none⟩, acc)
  | .date =>
    .ok (addRoutedCol route st fieldName ⟨columnName, .timestampTZ, false, none⟩, acc)
  | .jsonRichText =>
    .ok (addRoutedCol route st fieldName ⟨columnName, .jsonb, false, none⟩, acc)
  | .point =>
    let st₂ := addRoutedCol route st fieldName ⟨columnName, .geometry, false, none⟩
    .ok ({ st₂ with adapter := { st₂.adapter with postgis := true } }, acc)
  | .radio opts =>
    let enumName := createTableNameM ("enum_" ++ ctx.newTableName ++ "_") name
    let st₂ := addEnum st enumName opts
    .ok (addRoutedCol route st₂ fieldName ⟨columnName, .enumT enumName, false, none⟩, acc)
  | .select _ opts =>
    let enumName := createTableNameM ("enum_" ++ ctx.newTableName ++ "_") name
    let st₂ := addEnum st enumName opts
    .ok (addRoutedCol route st₂ fieldName ⟨columnName, .enumT enumName, false, none⟩, acc)
  | .relationship relTo hm =>
    relationshipStep ctx route localized unique required condition relTo hm
      columnName fieldName st acc
  | _ => .ok (st, acc)

mutual
/-- `traverseFields` of
`src/packages/drizzle/src/postgres/schema/traverseFields.ts`: derive the
parent id column type from `columns.id`, then fold the per-field dispatch
over the field list, threading the shared state and accumulating the
result flags (all initially false). -/
def traverseFields (ctx : Ctx) (fields : List Field) (st : TState) :
    Except Err (TState × Res) :=
  goFields ctx (parentIDTypeOf st.columns) fields st resInit
termination_by 4 * fssize fields + 2
decreasing_by
  all_goals try simp only [fssize, fsize, tsize, bssize]
  all_goals try split
  all_goals try simp only [fssize_idToUUID]
  all_goals omega

/-- The `fields.forEach` fold of `traverseFields`. -/
def goFields (ctx : Ctx) (pidt : IDType) (fields : List Field) (st : TState)
    (acc : Res) : Except Err (TState × Res) :=
  match fields with
  | [] => .ok (st, acc)
  | f :: rest =>
    match goField ctx pidt f st acc with
    | .error e => .error e
    | .ok (st', acc') => goFields ctx pidt rest st' acc'
termination_by 4 * fssize fields + 1
decreasing_by
  all_goals try simp only [fssize, fsize, tsize, bssize]
  all_goals try split
  all_goals try simp only [fssize_idToUUID]
  all_goals omega

/-- The per-field body of the `fields.forEach` of `traverseFields`: skip
`id`-named and virtual fields, derive `columnName`/`fieldName`, route
localized columns to the locale table, run the unique/index step, dispatch
on the field type, and finally apply the required/not-null step. -/
def goField (ctx : Ctx) (pidt : IDType) (f : Field) (st : TState) (acc : Res) :
    Except Err (TState × Res) :=
  match f with
  | .mk nameOpt localized unique hasIndex required isVirt condition ty =>
    if nameOpt = some "id" then .ok (st, acc)
    else if isVirt then .ok (st, acc)
    else
      let affects := nameOpt.isSome
      let name := nameOpt.getD ""
      let columnName := columnNameOf ctx name
      let fieldName := fieldNameOf ctx name
      let route := affects && routeLocale ctx localized ty
      let acc₁ := if route then { acc with hasLocalizedField := true } else acc
      let st₁ :=
        if affects then indexStep ctx route localized unique hasIndex ty name columnName fieldName st
        else st
      let dnlFromHere := condition || ctx.disableNotNull
      finishField ctx route affects required condition fieldName
        (match ty with
         | .group fs => goGroup ctx nameOpt localized dnlFromHere columnName fieldName fs st₁ acc₁
         | .rowOrCollapsible fs => goRowLike ctx dnlFromHere fs st₁ acc₁
         | .tabs ts => goRowLike ctx dnlFromHere ts st₁ acc₁
         | .array fs => goArray ctx pidt name fieldName localized dnlFromHere fs st₁ acc₁
         | .blocks bs => goBlocks ctx localized dnlFromHere bs st₁ acc₁
         | .select true opts => goSelectMany ctx pidt name fieldName opts localized hasIndex st₁ acc₁
         | t => plainCase ctx route localized unique hasIndex required condition
             name columnName fieldName t st₁ acc₁)
termination_by 4 * fsize f
decreasing_by
  all_goals try simp only [fssize, fsize, tsize, bssize]
  all_goals try split
  all_goals try simp only [fssize_idToUUID]
  all_goals omega

/-- The `group`/`tab` case: an unnamed group recurses in place, a named
group recurses with extended prefixes; no table is created either way. -/
def goGroup (ctx : Ctx) (nameOpt : Option String) (localized dnlFromHere : Bool)
    (columnName fieldName : String) (fs : List Field) (st : TState) (acc : Res) :
    Except Err (TState × Res) :=
  match nameOpt with
  | none => mapTruthy acc (traverseFields (unnamedGroupCtx ctx) fs st)
  | some _ =>
    mapTruthy acc
      (traverseFields (namedGroupCtx ctx localized dnlFromHere columnName fieldName) fs st)
termination_by 4 * fssize fs + 3
decreasing_by
  all_goals try simp only [fssize, fsize, tsize, bssize]
  all_goals try split
  all_goals try simp only [fssize_idToUUID]
  all_goals omega

/-- The `row`/`collapsible`/`tabs` case: recurse in place over the child
fields with unchanged prefixes and table identity. -/
def goRowLike (ctx : Ctx) (dnlFromHere : Bool) (fs : List Field) (st : TState)
    (acc : Res) : Except Err (TState × Res) :=
  mapTruthy acc (traverseFields (rowTabsCtx ctx dnlFromHere) fs st)
termination_by 4 * fssize fs + 3
decreasing_by
  all_goals try simp only [fssize, fsize, tsize, bssize]
  all_goals try split
  all_goals try simp only [fssize_idToUUID]
  all_goals omega

/-- The `array` case: build the child table (name derived from the
enclosing table), then record the many-relation and the child's drizzle
relations. -/
def goArray (ctx : Ctx) (pidt : IDType) (name fieldName : String)
    (localized dnlFromHere : Bool) (fs : List Field) (st : TState) (acc : Res) :
    Except Err (TState × Res) :=
  let arrayTableName := createTableNameM (ctx.newTableName ++ "_") name
  let isLoc := isLocalizedHere ctx localized
  match buildTable ctx.cfg arrayTableName (arrayBaseColumns pidt isLoc)
      (arrayBaseExtra arrayTableName ctx.parentTableName isLoc) dnlFromHere true
      ctx.disableUnique ctx.rootTableIDColType ctx.rootTableName ctx.versions isLoc
      none (if ctx.disableUnique then idToUUID fs else fs) st with
  | .error e => .error e
  | .ok (st₂, subRes, subRels) =>
    .ok (arrayFinish ctx fieldName arrayTableName fs subRels st₂, mergeSubTable acc subRes)
termination_by 4 * fssize fs + 4
decreasing_by
  all_goals try simp only [fssize, fsize, tsize, bssize]
  all_goals try split
  all_goals try simp only [fssize_idToUUID]
  all_goals omega

/-- The `hasMany` select case: build the `(order, parent, value[, locale])`
child table and record the many-relation and parent drizzle relation. -/
def goSelectMany (ctx : Ctx) (pidt : IDType) (name fieldName : String)
    (opts : List String) (localized hasIndex : Bool) (st : TState) (acc : Res) :
    Except Err (TState × Res) :=
  let enumName := createTableNameM ("enum_" ++ ctx.newTableName ++ "_") name
  let st₂ := addEnum st enumName opts
  let selectTableName := createTableNameM (ctx.newTableName ++ "_") name
  let isLoc := isLocalizedHere ctx localized
  match buildTable ctx.cfg selectTableName (selectBaseColumns pidt enumName isLoc)
      (selectBaseExtra selectTableName ctx.parentTableName isLoc hasIndex)
      ctx.disableNotNull false ctx.disableUnique ctx.rootTableIDColType
      ctx.rootTableName ctx.versions false none [] st₂ with
  | .error e => .error e
  | .ok (st₃, _, _) => .ok (selectFinish ctx fieldName selectTableName st₃, acc)
termination_by 4
decreasing_by
  all_goals try simp only [fssize, fsize, tsize, bssize]
  all_goals try split
  all_goals try simp only [fssize_idToUUID]
  all_goals omega

/-- The `field.blocks.forEach` of the blocks case: derive the block table
name from the root table and the block slug, build the table on the first
occurrence, otherwise (outside production and version passes) validate the
existing table against the occurrence's structural fingerprint, and record
the root-scoped many-relation for the block in every case. -/
def goBlocks (ctx : Ctx) (fieldLocalized : Bool) (dnlFromHere : Bool)
    (bs : List BlockCfg) (st : TState) (acc : Res) : Except Err (TState × Res) :=
  match bs with
  | [] => .ok (st, acc)
  | .mk slug bfields :: rest =>
    let blockTableName := createTableNameM (ctx.rootTableName ++ "_blocks_") slug
    let isLoc := isLocalizedHere ctx fieldLocalized
    let fp := blockFingerprint bfields isLoc
    match getKV st.adapter.tables blockTableName with
    | none =>
      match buildTable ctx.cfg blockTableName (blockBaseColumns ctx.rootTableIDColType isLoc)
          (blockBaseExtra blockTableName ctx.rootTableName isLoc) dnlFromHere true
          ctx.disableUnique ctx.rootTableIDColType ctx.rootTableName ctx.versions isLoc
          (some fp) (if ctx.disableUnique then idToUUID bfields else bfields) st with
      | .error e => .error e
      | .ok (st₂, subRes, subRels) =>
        goBlocks ctx fieldLocalized dnlFromHere rest
          (blockFinish ctx slug blockTableName bfields subRels st₂) (mergeSubTable acc subRes)
    | some spec =>
      if !ctx.cfg.prodEnv && !ctx.versions && spec.fingerprint ≠ some fp then
        .error (.invalidConfiguration (blockMismatchMsg slug))
      else
        goBlocks ctx fieldLocalized dnlFromHere rest (blockRelStep slug blockTableName st) acc
termination_by 4 * bssize bs + 1
decreasing_by
  all_goals try simp only [fssize, fsize, tsize, bssize]
  all_goals try split
  all_goals try simp only [fssize_idToUUID]
  all_goals omega

/-- Modelled from the spec: `buildTable` of `./build.js` — idempotent per
name; registers one physical table from the base columns plus the columns
collected by walking the field list with fresh per-table registries, adds
the generated id column (adapter default, overridden by a custom `id`
field), lazily registers the locale sibling table when the walk found a
localized field, and hands the collected relation map back to the caller.
Timestamps and the DDL-level table object are not modelled. -/
def buildTable (cfg : AdapterCfg) (tableName : String)
    (baseColumns : List (String × Col)) (baseExtraConfig : List (String × ExtraCfg))
    (dnl drtu du : Bool) (rootIDT : IDType) (rootTN : String)
    (versions withinLoc : Bool) (fp : Option String) (fields : List Field)
    (st : TState) : Except Err (TState × Res × List (String × RelationDesc)) :=
  if (getKV st.adapter.tables tableName).isSome then
    .ok (st, resInit, [])
  else
    let idTy := buildIdTy cfg fields
    match traverseFields (buildCtx cfg tableName dnl drtu du rootIDT rootTN versions withinLoc)
        fields (buildSubSt idTy baseColumns st) with
    | .error e => .error e
    | .ok (st₂, res) =>
      .ok (registerTable cfg tableName idTy baseExtraConfig fp st st₂ res,
        res, st₂.relationsToBuild)
termination_by 4 * fssize fields + 3
decreasing_by
  all_goals try simp only [fssize, fsize, tsize, bssize]
  all_goals try split
  all_goals try simp only [fssize_idToUUID]
  all_goals omega
end

/-! ### Generic facts about the fold -/

theorem goFields_nil (ctx : Ctx) (pidt : IDType) (st : TState) (acc : Res) :
    goFields ctx pidt [] st acc = .ok (st, acc) := by
  simp [goFields]

theorem goFields_cons (ctx : Ctx) (pidt : IDType) (f : Field) (rest : List Field)
    (st : TState) (acc : Res) :
    goFields ctx pidt (f :: rest) st acc =
      match goField ctx pidt f st acc with
      | .error e => .error e
      | .ok (st', acc') => goFields ctx pidt rest st' acc' := by
  rw [goFields]

/-- The fold over an appended list runs the first part, then the second on
the resulting state and flags. -/
theorem goFields_append (ctx : Ctx) (pidt : IDType) (xs ys : List Field)
    (st : TState) (acc : Res) :
    goFields ctx pidt (xs ++ ys) st acc =
      match goFields ctx pidt xs st acc with
      | .error e => .error e
      | .ok (st', acc') => goFields ctx pidt ys st' acc' := by
  induction xs generalizing st acc with
  | nil => simp [goFields_nil]
  | cons f rest ih =>
    rw [List.cons_append, goFields_cons, goFields_cons]
    cases goField ctx pidt f st acc with
    | error e => rfl
    | ok p => cases p with | mk st' acc' => simp [ih]

/-- A field whose name is exactly `id` is skipped: the per-field step
returns the state and flags unchanged. -/
theorem goField_skip_id (ctx : Ctx) (pidt : IDType) (f : Field) (st : TState)
    (acc : Res) (h : f.name = some "id") : goField ctx pidt f st acc = .ok (st, acc) := by
  cases f with
  | mk n l u i r v c ty =>
    simp only [Field.name] at h
    subst h
    rw [goField]
    rw [if_pos rfl]

/-- A virtual field is skipped: the per-field step returns the state and
flags unchanged. -/
theorem goField_skip_virtual (ctx : Ctx) (pidt : IDType) (f : Field) (st : TState)
    (acc : Res) (h : fieldIsVirtual f = true) : goField ctx pidt f st acc = .ok (st, acc) := by
  cases f with
  | mk n l u i r v c ty =>
    simp only [fieldIsVirtual, Field.isVirtual] at h
    subst h
    rw [goField]
    split
    · rfl
    · rw [if_pos rfl]

/-! ### Concrete fixtures used by witnesses and scenario conjuncts -/

/-- A basic adapter configuration: localization on, serial integer ids,
development environment, one related collection `pages`. -/
def cfg0 : AdapterCfg :=
  { localization := true, idTypeIsUUID := false, localesSuffix := "_locales",
    prodEnv := false, collections := [("pages", [])], tableNameMap := [("pages", "pages")] }

/-- A root-level walk context over a `posts` table. -/
def ctx0 : Ctx :=
  { cfg := cfg0, columnPfx := "", fieldPfx := "", disableNotNull := false,
    disableRelsTableUnique := false, disableUnique := false, forceLocalized := false,
    newTableName := "posts", parentTableName := "posts", rootTableIDColType := .integer,
    rootTableName := "posts", versions := false, withinLocalizedArrayOrBlock := false }

/-- An empty adapter context. -/
def adp0 : AdapterState :=
  { tables := [], enums := [], relations := [], fieldConstraints := [], postgis := false }

/-- An empty compilation state whose base table has a serial id column. -/
def st0 : TState :=
  { adapter := adp0,
    columns := [("id", ⟨"id", .integer, true, none⟩)], indexes := [],
    localesColumns := [], localesIndexes := [], relationsToBuild := [],
    rootRelationsToBuild := [], relationships := [], uniqueRelationships := [] }

/-- A named field with all modifiers off. -/
def plainF (n : String) (ty : FieldType) : Field :=
  .mk (some n) false false false false false false ty

/-! ### C8 / C9 — skipped fields -/

/-- Claim C8: a field whose name is exactly `id` is skipped entirely and
without an error — no column, index, relation descriptor or flag change is
produced for it — and the sibling fields around it are still processed:
traversing any field list containing such a field gives exactly the state
and flags of traversing the list with the field removed. -/
theorem c8_id_field_skipped (ctx : Ctx) (st : TState) (pre post : List Field)
    (f : Field) (h : f.name = some "id") :
    traverseFields ctx (pre ++ f :: post) st = traverseFields ctx (pre ++ post) st := by
  rw [traverseFields, traverseFields, goFields_append, goFields_append]
  cases hgo : goFields ctx (parentIDTypeOf st.columns) pre st resInit with
  | error e => rfl
  | ok p =>
    cases p with
    | mk st' acc' =>
      simp only
      rw [goFields_cons, goField_skip_id ctx _ f st' acc' h]

/-- Witness for C8 at a concrete input: a `hasMany`+`unique` text field
named `id` between two scalar fields is dropped from the walk. -/
theorem c8_id_field_skipped_witness :
    traverseFields ctx0 ([plainF "title" (.text false)] ++
        Field.mk (some "id") false true false false false false (.text true) ::
        [plainF "age" (.number false)]) st0 =
      traverseFields ctx0 ([plainF "title" (.text false)] ++ [plainF "age" (.number false)]) st0 :=
  c8_id_field_skipped ctx0 st0 [plainF "title" (.text false)] [plainF "age" (.number false)]
    (Field.mk (some "id") false true false false false false (.text true)) rfl

/-- Claim C9: a virtual field is skipped entirely: no column, index, enum,
child table or relation descriptor is produced for it, every shared
registry is left unchanged, and it contributes nothing to the returned
flags — traversing any field list containing it gives exactly the result
of traversing the list with the field removed. -/
theorem c9_virtual_field_skipped (ctx : Ctx) (st : TState) (pre post : List Field)
    (f : Field) (h : fieldIsVirtual f = true) :
    traverseFields ctx (pre ++ f :: post) st = traverseFields ctx (pre ++ post) st := by
  rw [traverseFields, traverseFields, goFields_append, goFields_append]
  cases hgo : goFields ctx (parentIDTypeOf st.columns) pre st resInit with
  | error e => rfl
  | ok p =>
    cases p with
    | mk st' acc' =>
      simp only
      rw [goFields_cons, goField_skip_virtual ctx _ f st' acc' h]

/-- Witness for C9 at a concrete input: a virtual localized text field
between two scalar fields is dropped from the walk. -/
theorem c9_virtual_field_skipped_witness :
    traverseFields ctx0 ([plainF "title" (.text false)] ++
        Field.mk (some "nick") true false false false true false (.text false) ::
        [plainF "age" (.number false)]) st0 =
      traverseFields ctx0 ([plainF "title" (.text false)] ++ [plainF "age" (.number false)]) st0 :=
  c9_virtual_field_skipped ctx0 st0 [plainF "title" (.text false)] [plainF "age" (.number false)]
    (Field.mk (some "nick") true false false false true false (.text false)) rfl

/-! ### C3 — localized routing -/

theorem getKV_setKV_self {α : Type} (l : List (String × α)) (k : String) (v : α) :
    getKV (setKV l k v) k = some v := by
  induction l with
  | nil => simp [setKV, getKV]
  | cons kv rest ih =>
    cases kv with
    | mk k' v' =>
      by_cases h : k' = k
      · simp [setKV, getKV, h]
      · simp [setKV, getKV, h, ih]

theorem updKV_setKV_self {α : Type} (l : List (String × α)) (k : String) (v : α)
    (g : α → α) : updKV (setKV l k v) k g = setKV l k (g v) := by
  induction l with
  | nil => simp [setKV, updKV]
  | cons kv rest ih =>
    cases kv with
    | mk k' v' =>
      by_cases h : k' = k
      · simp [setKV, updKV, h]
      · simp [setKV, updKV, h, ih]

/-- `traverseFields` on a one-field list is the per-field step. -/
theorem traverse_singleton (ctx : Ctx) (f : Field) (st : TState) :
    traverseFields ctx [f] st = goField ctx (parentIDTypeOf st.columns) f st resInit := by
  rw [traverseFields, goFields_cons]
  cases goField ctx (parentIDTypeOf st.columns) f st resInit with
  | error e => rfl
  | ok p => cases p with | mk st' acc' => simp [goFields_nil]

/-- The unique/index step never touches the column records. -/
theorem indexStep_columns (ctx : Ctx) (route l u i : Bool) (ty : FieldType)
    (n cn fn : String) (st : TState) :
    (indexStep ctx route l u i ty n cn fn st).columns = st.columns := by
  simp only [indexStep]
  repeat' split
  all_goals rfl

/-- The unique/index step never touches the locale column records. -/
theorem indexStep_localesColumns (ctx : Ctx) (route l u i : Bool) (ty : FieldType)
    (n cn fn : String) (st : TState) :
    (indexStep ctx route l u i ty n cn fn st).localesColumns = st.localesColumns := by
  simp only [indexStep]
  repeat' split
  all_goals rfl

/-- The fields the walker step emits exactly one column for: scalars,
single-valued text/number/select, radio, and single-target non-multi
relationships/uploads. -/
def emitsColumn : FieldType → Bool
  | .text hm => !hm
  | .number hm => !hm
  | .checkbox => true
  | .codeEmailTextarea => true
  | .date => true
  | .jsonRichText => true
  | .point => true
  | .radio _ => true
  | .select hm _ => !hm
  | .relationship (.single _) hm => !hm
  | _ => false

/-- Claim C3: for every column-emitting field marked `localized`, with
localization enabled the emitted column is added to the locale sibling's
column set and the base table's column set is left exactly unchanged; with
localization disabled the column is added to the base table's column set
and the locale sibling's column set is left exactly unchanged.  Quantified
over every walk context and state, this covers every localized field of
any tree. -/
theorem c3_localized_routing (ctx : Ctx) (st : TState) (n : String)
    (u i r cond : Bool) (ty : FieldType) (hn : ¬ n = "id") (hty : emitsColumn ty = true) :
    (ctx.cfg.localization = true →
      ∃ c, (traverseFields ctx [.mk (some n) true u i r false cond ty] st).map
          (fun p => (p.1.columns, p.1.localesColumns)) =
        .ok (st.columns, setKV st.localesColumns (fieldNameOf ctx n) c)) ∧
    (ctx.cfg.localization = false →
      ∃ c, (traverseFields ctx [.mk (some n) true u i r false cond ty] st).map
          (fun p => (p.1.columns, p.1.localesColumns)) =
        .ok (setKV st.columns (fieldNameOf ctx n) c, st.localesColumns)) := by
  cases ty with
  | group fs => exact absurd hty (by simp [emitsColumn])
  | rowOrCollapsible fs => exact absurd hty (by simp [emitsColumn])
  | tabs ts => exact absurd hty (by simp [emitsColumn])
  | array fs => exact absurd hty (by simp [emitsColumn])
  | blocks bs => exact absurd hty (by simp [emitsColumn])
  | relationship relTo hm =>
    cases relTo with
    | poly ss => exact absurd hty (by simp [emitsColumn])
    | single slug =>
      simp only [emitsColumn, Bool.not_eq_true'] at hty
      subst hty
      refine ⟨fun hloc => ?_, fun hloc => ?_⟩ <;>
      rw [traverse_singleton, goField] <;>
      rw [if_neg (by simpa using hn), if_neg (by simp)] <;>
      by_cases hP : (!ctx.disableNotNull && r && !cond) = true <;>
      (simp only [routeLocale, hasManyTrue, tyIsArray, tyIsBlocks, hloc, hP,
        Option.isSome_some, Option.getD_some, Bool.true_and, Bool.and_true,
        Bool.not_false, Bool.true_or, Bool.or_true, Bool.false_and, Bool.and_false,
        plainCase, finishField, applyRequired, addRoutedCol, addEnum,
        relationshipStep, ite_true, ite_false, Except.map,
        indexStep_columns, indexStep_localesColumns, updKV_setKV_self];
       simp [indexStep_columns, indexStep_localesColumns, updKV_setKV_self])
  | text hm =>
    simp only [emitsColumn, Bool.not_eq_true'] at hty
    subst hty
    refine ⟨fun hloc => ?_, fun hloc => ?_⟩ <;>
    rw [traverse_singleton, goField] <;>
    rw [if_neg (by simpa using hn), if_neg (by simp)] <;>
    by_cases hP : (!ctx.disableNotNull && r && !cond) = true <;>
    (simp only [routeLocale, hasManyTrue, tyIsArray, tyIsBlocks, hloc, hP,
      Option.isSome_some, Option.getD_some, Bool.true_and, Bool.and_true,
      Bool.not_false, Bool.true_or, Bool.or_true, Bool.false_and, Bool.and_false,
      plainCase, finishField, applyRequired, addRoutedCol, addEnum,
      relationshipStep, ite_true, ite_false, Except.map,
      indexStep_columns, indexStep_localesColumns, updKV_setKV_self];
     simp [indexStep_columns, indexStep_localesColumns, updKV_setKV_self])
  | number hm =>
    simp only [emitsColumn, Bool.not_eq_true'] at hty
    subst hty
    refine ⟨fun hloc => ?_, fun hloc => ?_⟩ <;>
    rw [traverse_singleton, goField] <;>
    rw [if_neg (by simpa using hn), if_neg (by simp)] <;>
    by_cases hP : (!ctx.disableNotNull && r && !cond) = true <;>
    (simp only [routeLocale, hasManyTrue, tyIsArray, tyIsBlocks, hloc, hP,
      Option.isSome_some, Option.getD_some, Bool.true_and, Bool.and_true,
      Bool.not_false, Bool.true_or, Bool.or_true, Bool.false_and, Bool.and_false,
      plainCase, finishField, applyRequired, addRoutedCol, addEnum,
      relationshipStep, ite_true, ite_false, Except.map,
      indexStep_columns, indexStep_localesColumns, updKV_setKV_self];
     simp [indexStep_columns, indexStep_localesColumns, updKV_setKV_self])
  | select hm opts =>
    simp only [emitsColumn, Bool.not_eq_true'] at hty
    subst hty
    refine ⟨fun hloc => ?_, fun hloc => ?_⟩ <;>
    rw [traverse_singleton, goField] <;>
    rw [if_neg (by simpa using hn), if_neg (by simp)] <;>
    by_cases hP : (!ctx.disableNotNull && r && !cond) = true <;>
    (simp only [routeLocale, hasManyTrue, tyIsArray, tyIsBlocks, hloc, hP,
      Option.isSome_some, Option.getD_some, Bool.true_and, Bool.and_true,
      Bool.not_false, Bool.true_or, Bool.or_true, Bool.false_and, Bool.and_false,
      plainCase, finishField, applyRequired, addRoutedCol, addEnum,
      relationshipStep, ite_true, ite_false, Except.map,
      indexStep_columns, indexStep_localesColumns, updKV_setKV_self];
     simp [indexStep_columns, indexStep_localesColumns, updKV_setKV_self])
  | checkbox =>
    refine ⟨fun hloc => ?_, fun hloc => ?_⟩ <;>
    rw [traverse_singleton, goField] <;>
    rw [if_neg (by simpa using hn), if_neg (by simp)] <;>
    by_cases hP : (!ctx.disableNotNull && r && !cond) = true <;>
    (simp only [routeLocale, hasManyTrue, tyIsArray, tyIsBlocks, hloc, hP,
      Option.isSome_some, Option.getD_some, Bool.true_and, Bool.and_true,
      Bool.not_false, Bool.true_or, Bool.or_true, Bool.false_and, Bool.and_false,
      plainCase, finishField, applyRequired, addRoutedCol, addEnum,
      relationshipStep, ite_true, ite_false, Except.map,
      indexStep_columns, indexStep_localesColumns, updKV_setKV_self];
     simp [indexStep_columns, indexStep_localesColumns, updKV_setKV_self])
  | codeEmailTextarea =>
    refine ⟨fun hloc => ?_, fun hloc => ?_⟩ <;>
    rw [traverse_singleton, goField] <;>
    rw [if_neg (by simpa using hn), if_neg (by simp)] <;>
    by_cases hP : (!ctx.disableNotNull && r && !cond) = true <;>
    (simp only [routeLocale, hasManyTrue, tyIsArray, tyIsBlocks, hloc, hP,
      Option.isSome_some, Option.getD_some, Bool.true_and, Bool.and_true,
      Bool.not_false, Bool.true_or, Bool.or_true, Bool.false_and, Bool.and_false,
      plainCase, finishField, applyRequired, addRoutedCol, addEnum,
      relationshipStep, ite_true, ite_false, Except.map,
      indexStep_columns, indexStep_localesColumns, updKV_setKV_self];
     simp [indexStep_columns, indexStep_localesColumns, updKV_setKV_self])
  | date =>
    refine ⟨fun hloc => ?_, fun hloc => ?_⟩ <;>
    rw [traverse_singleton, goField] <;>
    rw [if_neg (by simpa using hn), if_neg (by simp)] <;>
    by_cases hP : (!ctx.disableNotNull && r && !cond) = true <;>
    (simp only [routeLocale, hasManyTrue, tyIsArray, tyIsBlocks, hloc, hP,
      Option.isSome_some, Option.getD_some, Bool.true_and, Bool.and_true,
      Bool.not_false, Bool.true_or, Bool.or_true, Bool.false_and, Bool.and_false,
      plainCase, finishField, applyRequired, addRoutedCol, addEnum,
      relationshipStep, ite_true, ite_false, Except.map,
      indexStep_columns, indexStep_localesColumns, updKV_setKV_self];
     simp [indexStep_columns, indexStep_localesColumns, updKV_setKV_self])
  | jsonRichText =>
    refine ⟨fun hloc => ?_, fun hloc => ?_⟩ <;>
    rw [traverse_singleton, goField] <;>
    rw [if_neg (by simpa using hn), if_neg (by simp)] <;>
    by_cases hP : (!ctx.disableNotNull && r && !cond) = true <;>
    (simp only [routeLocale, hasManyTrue, tyIsArray, tyIsBlocks, hloc, hP,
      Option.isSome_some, Option.getD_some, Bool.true_and, Bool.and_true,
      Bool.not_false, Bool.true_or, Bool.or_true, Bool.false_and, Bool.and_false,
      plainCase, finishField, applyRequired, addRoutedCol, addEnum,
      relationshipStep, ite_true, ite_false, Except.map,
      indexStep_columns, indexStep_localesColumns, updKV_setKV_self];
     simp [indexStep_columns, indexStep_localesColumns, updKV_setKV_self])
  | point =>
    refine ⟨fun hloc => ?_, fun hloc => ?_⟩ <;>
    rw [traverse_singleton, goField] <;>
    rw [if_neg (by simpa using hn), if_neg (by simp)] <;>
    by_cases hP : (!ctx.disableNotNull && r && !cond) = true <;>
    (simp only [routeLocale, hasManyTrue, tyIsArray, tyIsBlocks, hloc, hP,
      Option.isSome_some, Option.getD_some, Bool.true_and, Bool.and_true,
      Bool.not_false, Bool.true_or, Bool.or_true, Bool.false_and, Bool.and_false,
      plainCase, finishField, applyRequired, addRoutedCol, addEnum,
      relationshipStep, ite_true, ite_false, Except.map,
      indexStep_columns, indexStep_localesColumns, updKV_setKV_self];
     simp [indexStep_columns, indexStep_localesColumns, updKV_setKV_self])
  | radio opts =>
    refine ⟨fun hloc => ?_, fun hloc => ?_⟩ <;>
    rw [traverse_singleton, goField] <;>
    rw [if_neg (by simpa using hn), if_neg (by simp)] <;>
    by_cases hP : (!ctx.disableNotNull && r && !cond) = true <;>
    (simp only [routeLocale, hasManyTrue, tyIsArray, tyIsBlocks, hloc, hP,
      Option.isSome_some, Option.getD_some, Bool.true_and, Bool.and_true,
      Bool.not_false, Bool.true_or, Bool.or_true, Bool.false_and, Bool.and_false,
      plainCase, finishField, applyRequired, addRoutedCol, addEnum,
      relationshipStep, ite_true, ite_false, Except.map,
      indexStep_columns, indexStep_localesColumns, updKV_setKV_self];
     simp [indexStep_columns, indexStep_localesColumns, updKV_setKV_self])

/-- Witness for C3 at a concrete input: a localized text field `title`
with localization enabled lands on the locale sibling and leaves the base
columns unchanged. -/
theorem c3_localized_routing_witness :
    ∃ c, (traverseFields ctx0 [.mk (some "title") true false false false false false (.text false)] st0).map
        (fun p => (p.1.columns, p.1.localesColumns)) =
      .ok (st0.columns, setKV st0.localesColumns (fieldNameOf ctx0 "title") c) :=
  (c3_localized_routing ctx0 st0 "title" false false false false (.text false)
    (by decide) (by decide)).1 rfl

/-! ### C7 / C10 — single-target relationships -/

/-- The trailing not-null step never touches the index records. -/
theorem applyRequired_indexes (ctx : Ctx) (route a r c : Bool) (fn : String) (st : TState) :
    (applyRequired ctx route a r c fn st).indexes = st.indexes := by
  simp only [applyRequired]
  repeat' split
  all_goals rfl

/-- The trailing not-null step never touches the locale index records. -/
theorem applyRequired_localesIndexes (ctx : Ctx) (route a r c : Bool) (fn : String)
    (st : TState) :
    (applyRequired ctx route a r c fn st).localesIndexes = st.localesIndexes := by
  simp only [applyRequired]
  repeat' split
  all_goals rfl

/-- Claim C7: a non-multi single-target relationship (or upload) field
emits, on the table that holds its columns, a foreign-key column named
`<column>_id` whose builder type is the related collection's declared id
type — numeric for a custom number id, varchar for a custom text id,
otherwise the adapter's uuid or integer default — and which references the
related table; the parent table's own id type does not enter the
formula. -/
theorem c7_relationship_fk_typed (ctx : Ctx) (st : TState) (n slug : String)
    (localized u i r cond : Bool) (hn : ¬ n = "id") :
    ∃ nn,
      (traverseFields ctx
          [.mk (some n) localized u i r false cond (.relationship (.single slug) false)] st).map
        (fun p => getKV
          (if ctx.cfg.localization && (localized || ctx.forceLocalized)
            then p.1.localesColumns else p.1.columns)
          (fieldNameOf ctx n)) =
      .ok (some ⟨columnNameOf ctx n ++ "_id",
        parentIDColumnMap (relatedIDType ctx.cfg slug), nn,
        some ((getKV ctx.cfg.tableNameMap (toSnakeCase slug)).getD "")⟩) := by
  rw [traverse_singleton, goField]
  rw [if_neg (by simpa using hn), if_neg (by simp)]
  by_cases hR : (ctx.cfg.localization && (localized || ctx.forceLocalized)) = true <;>
  by_cases hP : (!ctx.disableNotNull && r && !cond) = true <;>
  (simp only [routeLocale, hasManyTrue, tyIsArray, tyIsBlocks, hR, hP,
    Option.isSome_some, Option.getD_some, Bool.true_and, Bool.and_true,
    Bool.not_false, Bool.true_or, Bool.or_true, Bool.false_and, Bool.and_false,
    plainCase, finishField, applyRequired, addRoutedCol,
    relationshipStep, ite_true, ite_false, Except.map,
    indexStep_columns, indexStep_localesColumns, updKV_setKV_self, getKV_setKV_self];
   simp [indexStep_columns, indexStep_localesColumns, updKV_setKV_self, getKV_setKV_self])

/-- Witness for C7 at a concrete input: a relationship to a collection
with a custom text id gets a varchar foreign-key column referencing that
collection's table. -/
theorem c7_relationship_fk_typed_witness :
    ∃ nn,
      (traverseFields { ctx0 with
          cfg := { cfg0 with collections := [("pages", [plainF "id" (.text false)])] } }
          [.mk (some "page") false false false false false false
            (.relationship (.single "pages") false)] st0).map
        (fun p => getKV
          (if ({ ctx0 with
              cfg := { cfg0 with
                collections := [("pages", [plainF "id" (.text false)])] } } : Ctx).cfg.localization
              && (false || ({ ctx0 with
                cfg := { cfg0 with
                  collections := [("pages", [plainF "id" (.text false)])] } } : Ctx).forceLocalized)
            then p.1.localesColumns else p.1.columns)
          (fieldNameOf { ctx0 with
            cfg := { cfg0 with collections := [("pages", [plainF "id" (.text false)])] } } "page")) =
      .ok (some ⟨columnNameOf { ctx0 with
          cfg := { cfg0 with collections := [("pages", [plainF "id" (.text false)])] } } "page"
          ++ "_id",
        parentIDColumnMap (relatedIDType { cfg0 with
          collections := [("pages", [plainF "id" (.text false)])] } "pages"), nn,
        some ((getKV ({ cfg0 with
          collections := [("pages", [plainF "id" (.text false)])] } : AdapterCfg).tableNameMap
          (toSnakeCase "pages")).getD "")⟩) :=
  c7_relationship_fk_typed
    { ctx0 with cfg := { cfg0 with collections := [("pages", [plainF "id" (.text false)])] } }
    st0 "page" "pages" false false false false false (by decide)

/-- Claim C10: a non-multi single-target relationship (or upload) field
always gets an index on its column, registered in the index record of the
table that holds the column, even when the field requests neither `unique`
nor `index`; the index is unique exactly when the field requests `unique`
and uniqueness is not suppressed by the `disableUnique` policy switch. -/
theorem c10_relationship_always_indexed (ctx : Ctx) (st : TState) (n slug : String)
    (localized u i r cond : Bool) (hn : ¬ n = "id") :
    (traverseFields ctx
        [.mk (some n) localized u i r false cond (.relationship (.single slug) false)] st).map
      (fun p =>
        (getKV
          (if ctx.cfg.localization && (localized || ctx.forceLocalized)
            then p.1.localesIndexes else p.1.indexes)
          (buildIndexName (ctx.newTableName ++ "_" ++ columnNameOf ctx n)),
         (getKV
          (if ctx.cfg.localization && (localized || ctx.forceLocalized)
            then p.1.localesColumns else p.1.columns)
          (fieldNameOf ctx n)).isSome)) =
    .ok (some ⟨buildIndexName (ctx.newTableName ++ "_" ++ columnNameOf ctx n),
        if localized then [fieldNameOf ctx n, "_locale"] else [fieldNameOf ctx n],
        !ctx.disableUnique && u⟩,
      true) := by
  rw [traverse_singleton, goField]
  rw [if_neg (by simpa using hn), if_neg (by simp)]
  by_cases hR : (ctx.cfg.localization && (localized || ctx.forceLocalized)) = true <;>
  by_cases hU : (!ctx.disableUnique && u) = true <;>
  by_cases hP : (!ctx.disableNotNull && r && !cond) = true <;>
  (simp only [routeLocale, hasManyTrue, tyIsArray, tyIsBlocks, tyIsGroupLike,
    tyIsRelOrUpload, tyIsPolyRel, hR, hU, hP,
    Option.isSome_some, Option.getD_some, Bool.true_and, Bool.and_true,
    Bool.not_false, Bool.true_or, Bool.or_true, Bool.false_and, Bool.and_false,
    plainCase, finishField, applyRequired, addRoutedCol, indexStep,
    relationshipStep, ite_true, ite_false, Except.map,
    applyRequired_indexes, applyRequired_localesIndexes,
    updKV_setKV_self, getKV_setKV_self];
   simp [updKV_setKV_self, getKV_setKV_self])

/-- Witness for C10 at a concrete input: an unadorned relationship field
(no `unique`, no `index`) still gets a non-unique index next to its
column. -/
theorem c10_relationship_always_indexed_witness :
    (traverseFields ctx0
        [.mk (some "page") false false false false false false
          (.relationship (.single "pages") false)] st0).map
      (fun p =>
        (getKV
          (if ctx0.cfg.localization && (false || ctx0.forceLocalized)
            then p.1.localesIndexes else p.1.indexes)
          (buildIndexName (ctx0.newTableName ++ "_" ++ columnNameOf ctx0 "page")),
         (getKV
          (if ctx0.cfg.localization && (false || ctx0.forceLocalized)
            then p.1.localesColumns else p.1.columns)
          (fieldNameOf ctx0 "page")).isSome)) =
    .ok (some ⟨buildIndexName (ctx0.newTableName ++ "_" ++ columnNameOf ctx0 "page"),
        if false then [fieldNameOf ctx0 "page", "_locale"] else [fieldNameOf ctx0 "page"],
        !ctx0.disableUnique && false⟩,
      true) :=
  c10_relationship_always_indexed ctx0 st0 "page" "pages" false false false false false
    (by decide)

/-! ### C6 — named groups flatten into the enclosing table -/

/-- Claim C6: a named group (or named tab) produces no table of its own —
whatever its `localized` flag and the surrounding localization context,
the walker recurses over the children with the group name appended to
the column prefix and to the field-path prefix, the table name rebased on
the parent table, localization forced from the own localized flag of the group, against
the very same state, so all child columns land on the enclosing table or
its locale sibling; and the concrete tree `[bio: group [age: number]]`
compiles to the single enclosing table with one column `bio_age` and no
child table. -/
theorem c6_named_group_flattens :
    (∀ (ctx : Ctx) (st : TState) (n : String) (localized cond : Bool) (fs : List Field),
      ¬ n = "id" →
      traverseFields ctx [.mk (some n) localized false false false false cond (.group fs)] st =
        (traverseFields { ctx with
            columnPfx := columnNameOf ctx n ++ "_"
            fieldPfx := fieldNameOf ctx n ++ "."
            disableNotNull := cond || ctx.disableNotNull
            disableRelsTableUnique := false
            forceLocalized := localized
            newTableName := ctx.parentTableName ++ "_" ++ columnNameOf ctx n
            withinLocalizedArrayOrBlock := ctx.withinLocalizedArrayOrBlock || localized }
          fs st).map
          (fun p => (p.1,
            mergeTruthy
              (if ctx.cfg.localization && (localized || ctx.forceLocalized)
                then { resInit with hasLocalizedField := true } else resInit) p.2))) ∧
    (traverseFields ctx0
        [.mk (some "bio") false false false false false false
          (.group [plainF "age" (.number false)])] st0).map
      (fun p => (p.1.columns, p.1.adapter.tables, p.2)) =
    .ok ([("id", ⟨"id", .integer, true, none⟩),
          ("bio_age", ⟨"bio_age", .numeric, false, none⟩)], [], resInit) := by
  constructor
  · intro ctx st n localized cond fs hn
    have hctx : namedGroupCtx ctx localized (cond || ctx.disableNotNull)
        (columnNameOf ctx n) (fieldNameOf ctx n) = { ctx with
          columnPfx := columnNameOf ctx n ++ "_"
          fieldPfx := fieldNameOf ctx n ++ "."
          disableNotNull := cond || ctx.disableNotNull
          disableRelsTableUnique := false
          forceLocalized := localized
          newTableName := ctx.parentTableName ++ "_" ++ columnNameOf ctx n
          withinLocalizedArrayOrBlock := ctx.withinLocalizedArrayOrBlock || localized } := by
      simp [namedGroupCtx]
    rw [traverse_singleton, goField]
    rw [if_neg (by simpa using hn), if_neg (by simp)]
    simp only [routeLocale, hasManyTrue, tyIsArray, tyIsBlocks, Bool.not_false,
      Bool.or_false, Bool.false_or, Bool.and_false, Bool.false_and, Bool.true_and,
      Bool.and_true, Option.isSome_some, Option.getD_some, indexStep,
      tyIsRelOrUpload, tyIsGroupLike, tyIsPolyRel, ite_false, ite_true,
      Bool.false_eq_true, if_false,
      goGroup, hctx]
    cases htr : traverseFields { ctx with
        columnPfx := columnNameOf ctx n ++ "_"
        fieldPfx := fieldNameOf ctx n ++ "."
        disableNotNull := cond || ctx.disableNotNull
        disableRelsTableUnique := false
        forceLocalized := localized
        newTableName := ctx.parentTableName ++ "_" ++ columnNameOf ctx n
        withinLocalizedArrayOrBlock := ctx.withinLocalizedArrayOrBlock || localized } fs st with
    | error e => simp [mapTruthy, finishField, htr, Except.map]
    | ok p =>
      cases p with
      | mk st' sub =>
        simp [mapTruthy, finishField, applyRequired, htr, Except.map]
  · simp [traverseFields, goFields, goField, goGroup, namedGroupCtx, unnamedGroupCtx,
      plainCase, mapTruthy, finishField, applyRequired, addRoutedCol, indexStep,
      routeLocale, columnNameOf, fieldNameOf, toSnakeCase, snakeAux, collapseUnd,
      trimUnd, replaceFirstDot, replaceFirstDotAux, ctx0, cfg0, st0, adp0, plainF, resInit,
      parentIDTypeOf, getKV, setKV, hasManyTrue, tyIsArray, tyIsBlocks, tyIsGroupLike,
      tyIsRelOrUpload, tyIsPolyRel, mergeTruthy, isLocalizedHere, Except.map]

/-- Witness for C6 at a concrete input: the flattening equation applied to
a `localized` `bio`/`age` group under the root context — the recursion is
entered with forced localization, so the child column is routed to the
locale sibling. -/
theorem c6_named_group_flattens_witness :
    traverseFields ctx0
        [.mk (some "bio") true false false false false false
          (.group [plainF "age" (.number false)])] st0 =
      (traverseFields { ctx0 with
          columnPfx := columnNameOf ctx0 "bio" ++ "_"
          fieldPfx := fieldNameOf ctx0 "bio" ++ "."
          disableNotNull := false || ctx0.disableNotNull
          disableRelsTableUnique := false
          forceLocalized := true
          newTableName := ctx0.parentTableName ++ "_" ++ columnNameOf ctx0 "bio"
          withinLocalizedArrayOrBlock := ctx0.withinLocalizedArrayOrBlock || true }
        [plainF "age" (.number false)] st0).map
        (fun p => (p.1,
          mergeTruthy
            (if ctx0.cfg.localization && (true || ctx0.forceLocalized)
              then { resInit with hasLocalizedField := true } else resInit) p.2)) :=
  c6_named_group_flattens.1 ctx0 st0 "bio" true false [plainF "age" (.number false)]
    (by decide)

/-! ### C4 / C5 / C1 — block tables -/

theorem getKV_setKV_ne {α : Type} (l : List (String × α)) (k2 k : String) (v : α)
    (h : ¬ k2 = k) : getKV (setKV l k2 v) k = getKV l k := by
  induction l with
  | nil => simp [setKV, getKV, h]
  | cons kv rest ih =>
    cases kv with
    | mk k' v' =>
      by_cases hk : k' = k2
      · subst hk
        simp [setKV, getKV, h]
      · simp [setKV, getKV, hk, ih]

theorem getKV_setKV_isSome {α : Type} (l : List (String × α)) (k2 k : String) (v : α)
    (h : (getKV l k).isSome = true) : (getKV (setKV l k2 v) k).isSome = true := by
  by_cases hk : k2 = k
  · subst hk
    simp [getKV_setKV_self]
  · rw [getKV_setKV_ne l k2 k v hk]
    exact h

/-- The trailing not-null step never touches the adapter context. -/
theorem applyRequired_adapter (ctx : Ctx) (route a r c : Bool) (fn : String) (st : TState) :
    (applyRequired ctx route a r c fn st).adapter = st.adapter := by
  simp only [applyRequired]
  repeat' split
  all_goals rfl

/-- The trailing not-null step never touches the root relation registry. -/
theorem applyRequired_rootRelationsToBuild (ctx : Ctx) (route a r c : Bool) (fn : String)
    (st : TState) :
    (applyRequired ctx route a r c fn st).rootRelationsToBuild = st.rootRelationsToBuild := by
  simp only [applyRequired]
  repeat' split
  all_goals rfl

/-- Registering a block's drizzle relations and root relation leaves the
table registry unchanged. -/
theorem blockFinish_tables (ctx : Ctx) (slug btn : String) (bf : List Field)
    (srs : List (String × RelationDesc)) (st : TState) :
    (blockFinish ctx slug btn bf srs st).adapter.tables = st.adapter.tables := rfl

/-- `blockFinish` records exactly the root-scoped block relation. -/
theorem blockFinish_rootRelationsToBuild (ctx : Ctx) (slug btn : String) (bf : List Field)
    (srs : List (String × RelationDesc)) (st : TState) :
    (blockFinish ctx slug btn bf srs st).rootRelationsToBuild =
      setKV st.rootRelationsToBuild ("_blocks_" ++ slug) ⟨.many, false, btn⟩ := rfl

/-- The registration step of `buildTable` interns the table under its
name. -/
theorem getKV_registerTable_self (cfg : AdapterCfg) (tn : String) (idTy : ColType)
    (bec : List (String × ExtraCfg)) (fp : Option String) (st stW : TState) (res : Res) :
    (getKV (registerTable cfg tn idTy bec fp st stW res).adapter.tables tn).isSome = true := by
  simp only [registerTable]
  split
  · exact getKV_setKV_isSome _ _ _ _ (by simp [getKV_setKV_self])
  · simp [getKV_setKV_self]

/-- A successful `buildTable` leaves the table interned under its name. -/
theorem buildTable_ok_lookup (cfg : AdapterCfg) (tn : String)
    (bc : List (String × Col)) (bec : List (String × ExtraCfg))
    (dnl drtu du : Bool) (rootIDT : IDType) (rootTN : String)
    (versions withinLoc : Bool) (fp : Option String) (fields : List Field)
    (st st₂ : TState) (res : Res) (rels : List (String × RelationDesc))
    (h : buildTable cfg tn bc bec dnl drtu du rootIDT rootTN versions withinLoc fp fields st
      = .ok (st₂, res, rels)) :
    (getKV st₂.adapter.tables tn).isSome = true := by
  rw [buildTable] at h
  split at h
  · next hguard =>
    simp only [Except.ok.injEq, Prod.mk.injEq] at h
    obtain ⟨h1, -⟩ := h
    subst h1
    exact hguard
  · next hguard =>
    dsimp only at h
    cases htr : traverseFields
        (buildCtx cfg tn dnl drtu du rootIDT rootTN versions withinLoc) fields
        (buildSubSt (buildIdTy cfg fields) bc st) with
    | error e =>
      rw [htr] at h
      simp at h
    | ok p =>
      cases p with
      | mk stW resW =>
        rw [htr] at h
        simp only [Except.ok.injEq, Prod.mk.injEq] at h
        obtain ⟨h1, -⟩ := h
        subst h1
        exact getKV_registerTable_self cfg tn (buildIdTy cfg fields) bec fp st stW resW

/-- The block shape used in the block scenarios. -/
def quoteFields : List Field := [plainF "txt" (.text false)]

/-- A pre-registered block table whose fingerprint matches `quoteFields`
unlocalized. -/
def specPre : TableSpec := ⟨[], [], [], some (blockFingerprint quoteFields false)⟩

/-- A state in which the `quote` block table already exists with a
matching fingerprint. -/
def stPre : TState :=
  { st0 with adapter := { adp0 with tables := [("posts_blocks_quote", specPre)] } }

/-- Claim C4: under one root table each block shape gets exactly one child
table, named from the root table name plus the block slug — the name is
independent of the walk context's local prefixes and table names.  A later
occurrence whose fingerprint matches the registered table leaves the table
registry exactly unchanged; a first occurrence interns the table under
that name; and the concrete tree embedding the same `quote` shape at two
nesting depths produces exactly the one table `posts_blocks_quote`. -/
theorem c4_block_table_once :
    (∀ (ctx : Ctx) (st : TState) (n slug : String) (bfields : List Field)
       (localized u i r cond : Bool) (spec : TableSpec),
      ¬ n = "id" →
      getKV st.adapter.tables (ctx.rootTableName ++ "_blocks_" ++ toSnakeCase slug)
        = some spec →
      spec.fingerprint = some (blockFingerprint bfields (isLocalizedHere ctx localized)) →
      (traverseFields ctx
          [.mk (some n) localized u i r false cond (.blocks [.mk slug bfields])] st).map
        (fun p => p.1.adapter.tables) = .ok st.adapter.tables) ∧
    (∀ (ctx : Ctx) (st : TState) (n slug : String) (bfields : List Field)
       (localized u i r cond : Bool) (st' : TState) (res : Res),
      ¬ n = "id" →
      getKV st.adapter.tables (ctx.rootTableName ++ "_blocks_" ++ toSnakeCase slug) = none →
      traverseFields ctx
          [.mk (some n) localized u i r false cond (.blocks [.mk slug bfields])] st
        = .ok (st', res) →
      (getKV st'.adapter.tables (ctx.rootTableName ++ "_blocks_" ++ toSnakeCase slug)).isSome
        = true) ∧
    (traverseFields ctx0
        [plainF "content" (.blocks [.mk "quote" quoteFields]),
         .mk (some "wrap") false false false false false false
           (.group [plainF "inner" (.blocks [.mk "quote" quoteFields])])]
       st0).map
      (fun p => p.1.adapter.tables.map Prod.fst) = .ok ["posts_blocks_quote"] := by
  refine ⟨?_, ?_, ?_⟩
  · intro ctx st n slug bfields localized u i r cond spec hn hpres hfp
    rw [traverse_singleton, goField]
    rw [if_neg (by simpa using hn), if_neg (by simp)]
    simp only [goBlocks, createTableNameM, routeLocale, tyIsArray, tyIsBlocks, tyIsGroupLike,
      tyIsRelOrUpload, tyIsPolyRel, hasManyTrue, indexStep, Option.isSome_some,
      Option.getD_some, Bool.true_and, Bool.and_false, Bool.false_and, Bool.not_true,
      Bool.or_false, Bool.and_true, ite_false, ite_true, Bool.false_eq_true, if_false,
      BlockCfg.slug, BlockCfg.fields, hpres, hfp, finishField, Except.map]
    try rw [hpres]
    simp [hfp, applyRequired_adapter, blockRelStep, finishField, goBlocks, Except.map]
  · intro ctx st n slug bfields localized u i r cond st' res hn habs hok
    rw [traverse_singleton, goField] at hok
    rw [if_neg (by simpa using hn), if_neg (by simp)] at hok
    simp only [goBlocks, createTableNameM, routeLocale, tyIsArray, tyIsBlocks, tyIsGroupLike,
      tyIsRelOrUpload, tyIsPolyRel, hasManyTrue, indexStep, Option.isSome_some,
      Option.getD_some, Bool.true_and, Bool.and_false, Bool.false_and, Bool.not_true,
      Bool.or_false, Bool.and_true, ite_false, ite_true, Bool.false_eq_true, if_false,
      BlockCfg.slug, BlockCfg.fields, habs, finishField] at hok
    split at hok
    · simp at hok
    · next st₂ acc₂ heq =>
      simp only [Except.ok.injEq, Prod.mk.injEq] at hok
      obtain ⟨h1, -⟩ := hok
      subst h1
      rw [applyRequired_adapter]
      split at heq
      · simp at heq
      · next stB subResB subRelsB hbt =>
        simp only [Except.ok.injEq, Prod.mk.injEq] at heq
        obtain ⟨h2, -⟩ := heq
        subst h2
        rw [blockFinish_tables]
        exact buildTable_ok_lookup _ _ _ _ _ _ _ _ _ _ _ _ _ _ _ _ _ hbt
  · simp [traverseFields, goFields, goField, goBlocks, goGroup, goRowLike, goArray,
      goSelectMany, buildTable, plainCase, mapTruthy, finishField, applyRequired,
      addRoutedCol, addEnum, indexStep, routeLocale, columnNameOf, fieldNameOf,
      toSnakeCase, snakeAux, collapseUnd, trimUnd, replaceFirstDot, replaceFirstDotAux,
      ctx0, cfg0, st0, adp0, plainF, quoteFields, resInit, parentIDTypeOf, getKV, setKV,
      updKV, addSet, hasManyTrue, tyIsArray, tyIsBlocks, tyIsGroupLike, tyIsRelOrUpload,
      tyIsPolyRel, mergeTruthy, mergeSubTable, mergeMany, isLocalizedHere, Except.map,
      createTableNameM, blockFingerprint, encodeFields, encodeField, encodeFieldType,
      blockBaseColumns, blockBaseExtra, blockFinish, blockRelStep, buildIdTy, buildSubSt,
      buildCtx, registerTable, subRelEntries, hasLocalesTable, manyTextStep,
      manyNumberStep, relationshipStep, relatedIDType, idToUUID, idRename, namedGroupCtx,
      unnamedGroupCtx, rowTabsCtx, selectFinish, selectBaseColumns, selectBaseExtra,
      arrayBaseColumns, arrayBaseExtra, arrayFinish, addFieldConstraint, buildIndexName]

/-- Witness for C4 at a concrete input: a second occurrence of the
already-built `quote` block leaves the table registry unchanged. -/
theorem c4_block_table_once_witness :
    (traverseFields ctx0 [plainF "content" (.blocks [.mk "quote" quoteFields])] stPre).map
      (fun p => p.1.adapter.tables) = .ok stPre.adapter.tables :=
  c4_block_table_once.1 ctx0 stPre "content" "quote" quoteFields false false false false
    false specPre (by decide) (by decide) (by decide)

/-- Claim C5: every occurrence of a block shape records, in the root-scoped
relation registry, a cardinality-many unlocalized relation descriptor keyed
`_blocks_<slug>` whose target is the root-derived block table name — for a
later occurrence of an already-built (matching) block just as for a first
occurrence — and in the concrete tree with a block nested inside another
block both shapes relate directly to the root table, bypassing the
intermediate block. -/
theorem c5_block_root_relation :
    (∀ (ctx : Ctx) (st : TState) (n slug : String) (bfields : List Field)
       (localized u i r cond : Bool) (spec : TableSpec),
      ¬ n = "id" →
      getKV st.adapter.tables (ctx.rootTableName ++ "_blocks_" ++ toSnakeCase slug)
        = some spec →
      spec.fingerprint = some (blockFingerprint bfields (isLocalizedHere ctx localized)) →
      (traverseFields ctx
          [.mk (some n) localized u i r false cond (.blocks [.mk slug bfields])] st).map
        (fun p => getKV p.1.rootRelationsToBuild ("_blocks_" ++ slug)) =
      .ok (some ⟨.many, false, ctx.rootTableName ++ "_blocks_" ++ toSnakeCase slug⟩)) ∧
    (∀ (ctx : Ctx) (st : TState) (n slug : String) (bfields : List Field)
       (localized u i r cond : Bool) (st' : TState) (res : Res),
      ¬ n = "id" →
      getKV st.adapter.tables (ctx.rootTableName ++ "_blocks_" ++ toSnakeCase slug) = none →
      traverseFields ctx
          [.mk (some n) localized u i r false cond (.blocks [.mk slug bfields])] st
        = .ok (st', res) →
      getKV st'.rootRelationsToBuild ("_blocks_" ++ slug) =
        some ⟨.many, false, ctx.rootTableName ++ "_blocks_" ++ toSnakeCase slug⟩) ∧
    (traverseFields ctx0
        [plainF "content" (.blocks [.mk "quote"
          [plainF "sub" (.blocks [.mk "note" [plainF "memo" (.text false)]])]])]
       st0).map
      (fun p => p.1.rootRelationsToBuild) =
    .ok [("_blocks_note", ⟨.many, false, "posts_blocks_note"⟩),
         ("_blocks_quote", ⟨.many, false, "posts_blocks_quote"⟩)] := by
  refine ⟨?_, ?_, ?_⟩
  · intro ctx st n slug bfields localized u i r cond spec hn hpres hfp
    rw [traverse_singleton, goField]
    rw [if_neg (by simpa using hn), if_neg (by simp)]
    simp only [goBlocks, createTableNameM, routeLocale, tyIsArray, tyIsBlocks, tyIsGroupLike,
      tyIsRelOrUpload, tyIsPolyRel, hasManyTrue, indexStep, Option.isSome_some,
      Option.getD_some, Bool.true_and, Bool.and_false, Bool.false_and, Bool.not_true,
      Bool.or_false, Bool.and_true, ite_false, ite_true, Bool.false_eq_true, if_false,
      BlockCfg.slug, BlockCfg.fields, hpres, hfp, finishField, Except.map]
    try rw [hpres]
    simp [hfp, applyRequired_rootRelationsToBuild, blockRelStep, finishField, goBlocks,
      Except.map, getKV_setKV_self]
  · intro ctx st n slug bfields localized u i r cond st' res hn habs hok
    rw [traverse_singleton, goField] at hok
    rw [if_neg (by simpa using hn), if_neg (by simp)] at hok
    simp only [goBlocks, createTableNameM, routeLocale, tyIsArray, tyIsBlocks, tyIsGroupLike,
      tyIsRelOrUpload, tyIsPolyRel, hasManyTrue, indexStep, Option.isSome_some,
      Option.getD_some, Bool.true_and, Bool.and_false, Bool.false_and, Bool.not_true,
      Bool.or_false, Bool.and_true, ite_false, ite_true, Bool.false_eq_true, if_false,
      BlockCfg.slug, BlockCfg.fields, habs, finishField] at hok
    split at hok
    · simp at hok
    · next st₂ acc₂ heq =>
      simp only [Except.ok.injEq, Prod.mk.injEq] at hok
      obtain ⟨h1, -⟩ := hok
      subst h1
      rw [applyRequired_rootRelationsToBuild]
      split at heq
      · simp at heq
      · next stB subResB subRelsB hbt =>
        simp only [Except.ok.injEq, Prod.mk.injEq] at heq
        obtain ⟨h2, -⟩ := heq
        subst h2
        rw [blockFinish_rootRelationsToBuild]
        exact getKV_setKV_self _ _ _
  · simp [traverseFields, goFields, goField, goBlocks, goGroup, goRowLike, goArray,
      goSelectMany, buildTable, plainCase, mapTruthy, finishField, applyRequired,
      addRoutedCol, addEnum, indexStep, routeLocale, columnNameOf, fieldNameOf,
      toSnakeCase, snakeAux, collapseUnd, trimUnd, replaceFirstDot, replaceFirstDotAux,
      ctx0, cfg0, st0, adp0, plainF, resInit, parentIDTypeOf, getKV, setKV,
      updKV, addSet, hasManyTrue, tyIsArray, tyIsBlocks, tyIsGroupLike, tyIsRelOrUpload,
      tyIsPolyRel, mergeTruthy, mergeSubTable, mergeMany, isLocalizedHere, Except.map,
      createTableNameM, blockFingerprint, encodeFields, encodeField, encodeFieldType,
      blockBaseColumns, blockBaseExtra, blockFinish, blockRelStep, buildIdTy, buildSubSt,
      buildCtx, registerTable, subRelEntries, hasLocalesTable, manyTextStep,
      manyNumberStep, relationshipStep, relatedIDType, idToUUID, idRename, namedGroupCtx,
      unnamedGroupCtx, rowTabsCtx, selectFinish, selectBaseColumns, selectBaseExtra,
      arrayBaseColumns, arrayBaseExtra, arrayFinish, addFieldConstraint, buildIndexName]

/-- Witness for C5 at a concrete input: a repeated occurrence of the
already-built `quote` block still records the root-scoped many-relation to
`posts_blocks_quote`. -/
theorem c5_block_root_relation_witness :
    (traverseFields ctx0 [plainF "content" (.blocks [.mk "quote" quoteFields])] stPre).map
      (fun p => getKV p.1.rootRelationsToBuild ("_blocks_" ++ "quote")) =
    .ok (some ⟨.many, false, ctx0.rootTableName ++ "_blocks_" ++ toSnakeCase "quote"⟩) :=
  c5_block_root_relation.1 ctx0 stPre "content" "quote" quoteFields false false false false
    false specPre (by decide) (by decide) (by decide)

/-- A pre-registered `quote` block table whose fingerprint does not match
the shape `quoteFields`. -/
def specMis : TableSpec := ⟨[], [], [], some "bogus"⟩

/-- A state in which the `quote` block table exists with a mismatching
fingerprint. -/
def stMis : TState :=
  { st0 with adapter := { adp0 with tables := [("posts_blocks_quote", specMis)] } }

/-- The root context of a versions compilation pass. -/
def ctxV : Ctx := { ctx0 with versions := true }

/-- Counterexample to C1 as stated: with the `quote` block table already
registered under a structurally different fingerprint, a subsequent
occurrence of the shape in a versions pass does not fail — the walk
succeeds and leaves the registry unchanged, although the claim demands a
configuration error regardless of compilation mode. -/
theorem c1_counterexample_versions_pass :
    ¬ specMis.fingerprint = some (blockFingerprint quoteFields false) ∧
    (traverseFields ctxV [plainF "content" (.blocks [.mk "quote" quoteFields])] stMis).map
      (fun p => p.1.adapter.tables) = .ok stMis.adapter.tables := by
  constructor
  · decide
  · simp [traverseFields, goFields, goField, goBlocks, plainCase, mapTruthy, finishField,
      applyRequired, addRoutedCol, indexStep, routeLocale, columnNameOf, fieldNameOf,
      toSnakeCase, snakeAux, collapseUnd, trimUnd, replaceFirstDot, replaceFirstDotAux,
      ctxV, ctx0, cfg0, st0, stMis, specMis, adp0, plainF, quoteFields, resInit,
      parentIDTypeOf, getKV, setKV, updKV, hasManyTrue, tyIsArray, tyIsBlocks,
      tyIsGroupLike, tyIsRelOrUpload, tyIsPolyRel, isLocalizedHere, Except.map,
      createTableNameM, blockFingerprint, encodeFields, encodeField, encodeFieldType,
      blockRelStep]

/-- Claim C1 (amended): a block-shape occurrence whose structural
fingerprint differs from the already-registered block table aborts the
pass with a configuration error when `NODE_ENV` is not `production` and
the pass is not a versions pass; in a production or versions pass the
mismatched occurrence is accepted silently and the registry is left
unchanged. -/
theorem c1_block_mismatch_dev_only :
    (∀ (ctx : Ctx) (st : TState) (n slug : String) (bfields : List Field)
       (localized u i r cond : Bool) (spec : TableSpec),
      ¬ n = "id" → ctx.cfg.prodEnv = false → ctx.versions = false →
      getKV st.adapter.tables (ctx.rootTableName ++ "_blocks_" ++ toSnakeCase slug)
        = some spec →
      ¬ spec.fingerprint = some (blockFingerprint bfields (isLocalizedHere ctx localized)) →
      traverseFields ctx
          [.mk (some n) localized u i r false cond (.blocks [.mk slug bfields])] st
        = .error (.invalidConfiguration (blockMismatchMsg slug))) ∧
    (∀ (ctx : Ctx) (st : TState) (n slug : String) (bfields : List Field)
       (localized u i r cond : Bool) (spec : TableSpec),
      ¬ n = "id" → (ctx.cfg.prodEnv = true ∨ ctx.versions = true) →
      getKV st.adapter.tables (ctx.rootTableName ++ "_blocks_" ++ toSnakeCase slug)
        = some spec →
      (traverseFields ctx
          [.mk (some n) localized u i r false cond (.blocks [.mk slug bfields])] st).map
        (fun p => p.1.adapter.tables) = .ok st.adapter.tables) := by
  constructor
  · intro ctx st n slug bfields localized u i r cond spec hn hprod hver hpres hne
    rw [traverse_singleton, goField]
    rw [if_neg (by simpa using hn), if_neg (by simp)]
    simp only [goBlocks, createTableNameM, routeLocale, tyIsArray, tyIsBlocks, tyIsGroupLike,
      tyIsRelOrUpload, tyIsPolyRel, hasManyTrue, indexStep, Option.isSome_some,
      Option.getD_some, Bool.true_and, Bool.and_false, Bool.false_and, Bool.not_true,
      Bool.or_false, Bool.and_true, ite_false, ite_true, Bool.false_eq_true, if_false,
      BlockCfg.slug, BlockCfg.fields, hpres, finishField]
    simp [hprod, hver, hne, finishField]
  · intro ctx st n slug bfields localized u i r cond spec hn hpv hpres
    rw [traverse_singleton, goField]
    rw [if_neg (by simpa using hn), if_neg (by simp)]
    simp only [goBlocks, createTableNameM, routeLocale, tyIsArray, tyIsBlocks, tyIsGroupLike,
      tyIsRelOrUpload, tyIsPolyRel, hasManyTrue, indexStep, Option.isSome_some,
      Option.getD_some, Bool.true_and, Bool.and_false, Bool.false_and, Bool.not_true,
      Bool.or_false, Bool.and_true, ite_false, ite_true, Bool.false_eq_true, if_false,
      BlockCfg.slug, BlockCfg.fields, hpres, finishField]
    rcases hpv with h | h <;>
    simp [h, applyRequired_adapter, blockRelStep, finishField, goBlocks, Except.map]

/-- Witness for C1 (amended) at a concrete input: outside production and
versions passes, the mismatched `quote` occurrence aborts with the
configuration error. -/
theorem c1_block_mismatch_dev_only_witness :
    traverseFields ctx0 [plainF "content" (.blocks [.mk "quote" quoteFields])] stMis
      = .error (.invalidConfiguration (blockMismatchMsg "quote")) :=
  c1_block_mismatch_dev_only.1 ctx0 stMis "content" "quote" quoteFields false false false
    false false specMis (by decide) (by decide) (by decide) (by decide) (by decide)

/-! ### C2 — unique on multi-valued text/number fields -/

/-- A field the walker must reject: a text or number field with
`hasMany` storage that also requests `unique`. -/
def isBadManyUnique (f : Field) : Bool :=
  match f with
  | .mk _ _ u _ _ _ _ (.text true) => u
  | .mk _ _ u _ _ _ _ (.number true) => u
  | _ => false

/-- Whether an `Except` result is an error. -/
def isErr {ε α : Type} : Except ε α → Bool
  | .error _ => true
  | .ok _ => false

/-- Whether a walker result is one of the two unsupported-uniqueness
`InvalidConfiguration` errors. -/
def isUniqueManyErrE {α : Type} : Except Err α → Bool
  | .error (.invalidConfiguration m) =>
    m == uniqueManyTextMsg || m == uniqueManyNumberMsg
  | .ok _ => false

mutual
/-- No `hasMany`+`unique` text/number field occurs in this field,
anywhere in its subtree (skipped positions included). -/
def fieldNoBad : Field → Bool
  | .mk _ _ u _ _ _ _ ty => tyNoBad u ty

def tyNoBad (u : Bool) : FieldType → Bool
  | .text hm => !(hm && u)
  | .number hm => !(hm && u)
  | .group fs => fieldsNoBad fs
  | .rowOrCollapsible fs => fieldsNoBad fs
  | .tabs fs => fieldsNoBad fs
  | .array fs => fieldsNoBad fs
  | .blocks bs => blocksNoBad bs
  | _ => true

def fieldsNoBad : List Field → Bool
  | [] => true
  | f :: rest => fieldNoBad f && fieldsNoBad rest

def blocksNoBad : List BlockCfg → Bool
  | [] => true
  | .mk _ fs :: rest => fieldsNoBad fs && blocksNoBad rest
end

theorem fieldsNoBad_idToUUID (fs : List Field) : fieldsNoBad (idToUUID fs) = fieldsNoBad fs := by
  induction fs with
  | nil => rfl
  | cons f rest ih =>
    have hf : fieldNoBad (idRename f) = fieldNoBad f := by
      cases f with
      | mk n l u i r v c ty => simp only [idRename, fieldNoBad]; split <;> rfl
    simp only [idToUUID, List.map] at ih ⊢
    simp only [fieldsNoBad, hf, ih]

/-- The relationship/upload case never raises an error. -/
theorem relationshipStep_not_uniqueErr (ctx : Ctx)
    (route localized unique required condition : Bool) (relTo : RelTo) (hm : Bool)
    (cn fn : String) (st : TState) (acc : Res) :
    isUniqueManyErrE (relationshipStep ctx route localized unique required condition
      relTo hm cn fn st acc) = false := by
  simp only [relationshipStep]
  repeat' split
  all_goals rfl

/-- The non-container cases raise the unsupported-uniqueness error only
for a bad `hasMany`+`unique` text/number field. -/
theorem plainCase_noBad (ctx : Ctx) (route localized u hasIndex required condition : Bool)
    (n cn fn : String) (ty : FieldType) (st : TState) (acc : Res)
    (h : tyNoBad u ty = true) :
    isUniqueManyErrE (plainCase ctx route localized u hasIndex required condition
      n cn fn ty st acc) = false := by
  cases ty <;>
    simp only [plainCase, tyNoBad, manyTextStep, manyNumberStep,
      relationshipStep_not_uniqueErr] <;>
    try rfl
  case text hm =>
    cases hm
    · rfl
    · simp only [tyNoBad, Bool.true_and, Bool.not_eq_true'] at h
      simp [h, isUniqueManyErrE]
  case number hm =>
    cases hm
    · rfl
    · simp only [tyNoBad, Bool.true_and, Bool.not_eq_true'] at h
      simp [h, isUniqueManyErrE]

/-- `mapTruthy` preserves error classification. -/
theorem isUniqueManyErrE_mapTruthy (acc : Res) (r : Except Err (TState × Res)) :
    isUniqueManyErrE (mapTruthy acc r) = isUniqueManyErrE r := by
  cases r with
  | error e => rfl
  | ok p => cases p with | mk a b => rfl

/-- `finishField` preserves error classification. -/
theorem isUniqueManyErrE_finishField (ctx : Ctx) (route a r c : Bool) (fn : String)
    (x : Except Err (TState × Res)) :
    isUniqueManyErrE (finishField ctx route a r c fn x) = isUniqueManyErrE x := by
  cases x with
  | error e => rfl
  | ok p => cases p with | mk a b => rfl

/-- The modelled block-mismatch message is not an unsupported-uniqueness
message. -/
theorem blockMismatchMsg_not_unique (slug : String) :
    isUniqueManyErrE (α := TState × Res)
      (.error (.invalidConfiguration (blockMismatchMsg slug))) = false := by
  simp only [isUniqueManyErrE, blockMismatchMsg]
  decide

/-- Hoisting the common error-or-continue match of the container cases:
the compound result is never an unsupported-uniqueness error when neither
the scrutinee nor any continuation is. -/
theorem isUniqueManyErrE_matchBT
    (x : Except Err (TState × Res × List (String × RelationDesc)))
    (k : TState → Res → List (String × RelationDesc) → Except Err (TState × Res))
    (hx : isUniqueManyErrE x = false)
    (hk : ∀ a b c, isUniqueManyErrE (k a b c) = false) :
    isUniqueManyErrE (match x with
      | .error e => .error e
      | .ok (a, b, c) => k a b c) = false := by
  cases x with
  | error e => exact hx
  | ok p =>
    obtain ⟨a, b, c⟩ := p
    exact hk a b c

/-- The group case classifies like its recursive walk. -/
theorem isUniqueManyErrE_goGroup (ctx : Ctx) (no : Option String) (l d : Bool)
    (cn fn : String) (fs : List Field) (st : TState) (acc : Res) :
    isUniqueManyErrE (goGroup ctx no l d cn fn fs st acc) =
      isUniqueManyErrE (traverseFields
        (match no with
         | none => unnamedGroupCtx ctx
         | some _ => namedGroupCtx ctx l d cn fn) fs st) := by
  cases no <;> rw [goGroup] <;> rw [isUniqueManyErrE_mapTruthy]

/-- The row/collapsible/tabs case classifies like its recursive walk. -/
theorem isUniqueManyErrE_goRowLike (ctx : Ctx) (d : Bool) (fs : List Field)
    (st : TState) (acc : Res) :
    isUniqueManyErrE (goRowLike ctx d fs st acc) =
      isUniqueManyErrE (traverseFields (rowTabsCtx ctx d) fs st) := by
  rw [goRowLike, isUniqueManyErrE_mapTruthy]

/-- Strong induction over the walker: when no `hasMany`+`unique`
text/number field occurs anywhere in the tree, no unsupported-uniqueness
error comes out of any of the four mutually recursive entry points. -/
theorem noBad_aux (N : Nat) :
    (∀ (fields : List Field) (ctx : Ctx) (pidt : IDType) (st : TState) (acc : Res),
      fssize fields ≤ N → fieldsNoBad fields = true →
      isUniqueManyErrE (goFields ctx pidt fields st acc) = false) ∧
    (∀ (f : Field) (ctx : Ctx) (pidt : IDType) (st : TState) (acc : Res),
      fsize f ≤ N → fieldNoBad f = true →
      isUniqueManyErrE (goField ctx pidt f st acc) = false) ∧
    (∀ (bs : List BlockCfg) (ctx : Ctx) (l d : Bool) (st : TState) (acc : Res),
      bssize bs ≤ N → blocksNoBad bs = true →
      isUniqueManyErrE (goBlocks ctx l d bs st acc) = false) ∧
    (∀ (fields : List Field) (cfg : AdapterCfg) (tn : String)
       (bc : List (String × Col)) (bec : List (String × ExtraCfg))
       (dnl drtu du : Bool) (rootIDT : IDType) (rootTN : String)
       (versions withinLoc : Bool) (fp : Option String) (st : TState),
      fssize fields ≤ N → fieldsNoBad fields = true →
      isUniqueManyErrE (buildTable cfg tn bc bec dnl drtu du rootIDT rootTN
        versions withinLoc fp fields st) = false) := by
  induction N using Nat.strong_induction_on with
  | _ N IH =>
  have h₁ : ∀ (fields : List Field) (ctx : Ctx) (pidt : IDType) (st : TState) (acc : Res),
      fssize fields ≤ N → fieldsNoBad fields = true →
      isUniqueManyErrE (goFields ctx pidt fields st acc) = false := by
    intro fields ctx pidt st acc hsz hnb
    cases fields with
    | nil => rw [goFields_nil]; rfl
    | cons f rest =>
      rw [goFields_cons]
      simp only [fieldsNoBad, Bool.and_eq_true] at hnb
      have hszf : fsize f < N := by simp only [fssize] at hsz; omega
      have hszr : fssize rest < N := by simp only [fssize] at hsz; omega
      cases hgf : goField ctx pidt f st acc with
      | error e =>
        have hx := (IH (fsize f) hszf).2.1 f ctx pidt st acc (le_refl _) hnb.1
        rw [hgf] at hx
        exact hx
      | ok p =>
        cases p with
        | mk st' acc' =>
          exact (IH (fssize rest) hszr).1 rest ctx pidt st' acc' (le_refl _) hnb.2
  have h₁t : ∀ (fields : List Field) (ctx : Ctx) (st : TState),
      fssize fields ≤ N → fieldsNoBad fields = true →
      isUniqueManyErrE (traverseFields ctx fields st) = false := by
    intro fields ctx st hsz hnb
    rw [traverseFields]
    exact h₁ fields ctx _ st resInit hsz hnb
  have h₄ : ∀ (fields : List Field) (cfg : AdapterCfg) (tn : String)
      (bc : List (String × Col)) (bec : List (String × ExtraCfg))
      (dnl drtu du : Bool) (rootIDT : IDType) (rootTN : String)
      (versions withinLoc : Bool) (fp : Option String) (st : TState),
      fssize fields ≤ N → fieldsNoBad fields = true →
      isUniqueManyErrE (buildTable cfg tn bc bec dnl drtu du rootIDT rootTN
        versions withinLoc fp fields st) = false := by
    intro fields cfg tn bc bec dnl drtu du rootIDT rootTN versions withinLoc fp st hsz hnb
    rw [buildTable]
    split
    · rfl
    · dsimp only
      cases htr : traverseFields
          (buildCtx cfg tn dnl drtu du rootIDT rootTN versions withinLoc) fields
          (buildSubSt (buildIdTy cfg fields) bc st) with
      | error e =>
        have hx := h₁t fields
          (buildCtx cfg tn dnl drtu du rootIDT rootTN versions withinLoc)
          (buildSubSt (buildIdTy cfg fields) bc st) hsz hnb
        rw [htr] at hx
        exact hx
      | ok p =>
        cases p with
        | mk st₂ res => rfl
  have h₃ : ∀ (bs : List BlockCfg) (ctx : Ctx) (l d : Bool) (st : TState) (acc : Res),
      bssize bs ≤ N → blocksNoBad bs = true →
      isUniqueManyErrE (goBlocks ctx l d bs st acc) = false := by
    intro bs ctx l d st acc hsz hnb
    cases bs with
    | nil => rw [goBlocks]; rfl
    | cons b rest =>
      cases b with
      | mk slug bfields =>
        simp only [blocksNoBad, Bool.and_eq_true] at hnb
        have hszr : bssize rest < N := by simp only [bssize] at hsz; omega
        have hsz' : fssize (if ctx.disableUnique = true then idToUUID bfields else bfields)
            ≤ N := by
          simp only [bssize] at hsz
          split
          · rw [fssize_idToUUID]; omega
          · omega
        have hnb' : fieldsNoBad (if ctx.disableUnique = true then idToUUID bfields else bfields)
            = true := by
          split
          · rw [fieldsNoBad_idToUUID]; exact hnb.1
          · exact hnb.1
        rw [goBlocks]
        split
        · apply isUniqueManyErrE_matchBT
          · exact h₄ _ _ _ _ _ _ _ _ _ _ _ _ _ _ hsz' hnb'
          · intro a b c
            exact (IH (bssize rest) hszr).2.2.1 rest ctx l d _ _ (le_refl _) hnb.2
        · split
          · exact blockMismatchMsg_not_unique slug
          · exact (IH (bssize rest) hszr).2.2.1 rest ctx l d _ _ (le_refl _) hnb.2
  have h₂ : ∀ (f : Field) (ctx : Ctx) (pidt : IDType) (st : TState) (acc : Res),
      fsize f ≤ N → fieldNoBad f = true →
      isUniqueManyErrE (goField ctx pidt f st acc) = false := by
    intro f ctx pidt st acc hsz hnb
    cases f with
    | mk nameOpt localized unique hasIndex required isVirt condition ty =>
      rw [goField]
      by_cases hid : nameOpt = some "id"
      · rw [if_pos hid]; rfl
      · rw [if_neg hid]
        cases isVirt with
        | true => rw [if_pos rfl]; rfl
        | false =>
          rw [if_neg (by simp)]
          rw [isUniqueManyErrE_finishField]
          simp only [fieldNoBad] at hnb
          cases ty with
          | text hm => exact plainCase_noBad _ _ _ _ _ _ _ _ _ _ _ _ _ hnb
          | number hm => exact plainCase_noBad _ _ _ _ _ _ _ _ _ _ _ _ _ hnb
          | checkbox => exact plainCase_noBad _ _ _ _ _ _ _ _ _ _ _ _ _ hnb
          | codeEmailTextarea => exact plainCase_noBad _ _ _ _ _ _ _ _ _ _ _ _ _ hnb
          | date => exact plainCase_noBad _ _ _ _ _ _ _ _ _ _ _ _ _ hnb
          | jsonRichText => exact plainCase_noBad _ _ _ _ _ _ _ _ _ _ _ _ _ hnb
          | point => exact plainCase_noBad _ _ _ _ _ _ _ _ _ _ _ _ _ hnb
          | radio opts => exact plainCase_noBad _ _ _ _ _ _ _ _ _ _ _ _ _ hnb
          | relationship relTo hm => exact relationshipStep_not_uniqueErr _ _ _ _ _ _ _ _ _ _ _ _
          | select hm opts =>
            cases hm with
            | false => exact plainCase_noBad _ _ _ _ _ _ _ _ _ _ _ _ _ hnb
            | true =>
              dsimp only
              rw [goSelectMany]
              apply isUniqueManyErrE_matchBT
              · exact h₄ [] _ _ _ _ _ _ _ _ _ _ _ _ _ (by simp [fssize]) rfl
              · intro a b c
                rfl
          | group fs =>
            simp only [tyNoBad] at hnb
            have hfs : fssize fs ≤ N := by simp only [fsize, tsize] at hsz; omega
            rw [isUniqueManyErrE_goGroup]
            exact h₁t fs _ _ hfs hnb
          | rowOrCollapsible fs =>
            simp only [tyNoBad] at hnb
            have hfs : fssize fs ≤ N := by simp only [fsize, tsize] at hsz; omega
            rw [isUniqueManyErrE_goRowLike]
            exact h₁t fs _ _ hfs hnb
          | tabs ts =>
            simp only [tyNoBad] at hnb
            have hfs : fssize ts ≤ N := by simp only [fsize, tsize] at hsz; omega
            rw [isUniqueManyErrE_goRowLike]
            exact h₁t ts _ _ hfs hnb
          | array fs =>
            simp only [tyNoBad] at hnb
            have hsz' : fssize (if ctx.disableUnique = true then idToUUID fs else fs)
                ≤ N := by
              simp only [fsize, tsize] at hsz
              split
              · rw [fssize_idToUUID]; omega
              · omega
            have hnb' : fieldsNoBad (if ctx.disableUnique = true then idToUUID fs else fs)
                = true := by
              split
              · rw [fieldsNoBad_idToUUID]; exact hnb
              · exact hnb
            dsimp only
            rw [goArray]
            apply isUniqueManyErrE_matchBT
            · exact h₄ _ _ _ _ _ _ _ _ _ _ _ _ _ _ hsz' hnb'
            · intro a b c
              rfl
          | blocks bs =>
            simp only [tyNoBad] at hnb
            have hbs : bssize bs ≤ N := by simp only [fsize, tsize] at hsz; omega
            exact h₃ bs _ _ _ _ _ hbs hnb
  exact ⟨h₁, h₂, h₃, h₄⟩

/-- A `hasMany` text field that also requests `unique`, named `dups`. -/
def badManyF : Field := .mk (some "dups") false true false false false false (.text true)

/-- A `hasMany`+`unique` text field whose name is `id` — skipped wholesale
by the walker before the uniqueness check can run. -/
def badIdF : Field := .mk (some "id") false true false false false false (.text true)

/-- A processed (not named `id`, not virtual) `hasMany`+`unique`
text/number field throws the unsupported-uniqueness
`InvalidConfiguration` unconditionally. -/
theorem goField_bad (ctx : Ctx) (pidt : IDType) (f : Field) (st : TState) (acc : Res)
    (hbad : isBadManyUnique f = true) (hid : f.name ≠ some "id")
    (hvirt : fieldIsVirtual f = false) :
    isUniqueManyErrE (goField ctx pidt f st acc) = true := by
  cases f with
  | mk nameOpt localized unique hasIndex required isVirt condition ty =>
    simp only [Field.name] at hid
    simp only [fieldIsVirtual, Field.isVirtual] at hvirt
    subst hvirt
    rw [goField]
    rw [if_neg hid]
    rw [if_neg (by simp)]
    rw [isUniqueManyErrE_finishField]
    cases ty with
    | text hm =>
      cases hm with
      | true =>
        simp only [isBadManyUnique] at hbad
        subst hbad
        dsimp only
        simp [plainCase, manyTextStep, isUniqueManyErrE]
      | false => simp [isBadManyUnique] at hbad
    | number hm =>
      cases hm with
      | true =>
        simp only [isBadManyUnique] at hbad
        subst hbad
        dsimp only
        simp [plainCase, manyNumberStep, isUniqueManyErrE]
      | false => simp [isBadManyUnique] at hbad
    | checkbox => simp [isBadManyUnique] at hbad
    | codeEmailTextarea => simp [isBadManyUnique] at hbad
    | date => simp [isBadManyUnique] at hbad
    | jsonRichText => simp [isBadManyUnique] at hbad
    | point => simp [isBadManyUnique] at hbad
    | radio opts => simp [isBadManyUnique] at hbad
    | select hm opts => simp [isBadManyUnique] at hbad
    | relationship relTo hm => simp [isBadManyUnique] at hbad
    | group fs => simp [isBadManyUnique] at hbad
    | rowOrCollapsible fs => simp [isBadManyUnique] at hbad
    | tabs ts => simp [isBadManyUnique] at hbad
    | array fs => simp [isBadManyUnique] at hbad
    | blocks bs => simp [isBadManyUnique] at hbad

/-- Claim C2 (corrected): every *processed* `hasMany` text/number field
requesting `unique` — one that is not named `id` and not virtual — makes
the whole pass abort in error, wherever it sits in the sibling list; and
conversely, when no `hasMany`+`unique` text/number field occurs anywhere
in the tree, the walk never produces the unsupported-uniqueness
`InvalidConfiguration`.  The original if-and-only-if over mere *presence*
fails: a field named `id` is skipped before the check (see the
counterexample). -/
theorem c2_unique_many_rejected :
    (∀ (ctx : Ctx) (pre post : List Field) (f : Field) (st : TState),
       isBadManyUnique f = true → f.name ≠ some "id" → fieldIsVirtual f = false →
       isErr (traverseFields ctx (pre ++ f :: post) st) = true) ∧
    (∀ (fields : List Field) (ctx : Ctx) (st : TState),
       fieldsNoBad fields = true →
       isUniqueManyErrE (traverseFields ctx fields st) = false) := by
  constructor
  · intro ctx pre post f st hbad hid hvirt
    rw [traverseFields, goFields_append]
    cases goFields ctx (parentIDTypeOf st.columns) pre st resInit with
    | error e => rfl
    | ok p =>
      cases p with
      | mk st' acc' =>
        dsimp only
        rw [goFields_cons]
        have h := goField_bad ctx (parentIDTypeOf st.columns) f st' acc' hbad hid hvirt
        cases hgf : goField ctx (parentIDTypeOf st.columns) f st' acc' with
        | error e => rfl
        | ok q =>
          rw [hgf] at h
          simp [isUniqueManyErrE] at h
  · intro fields ctx st hnb
    rw [traverseFields]
    exact (noBad_aux (fssize fields)).1 fields ctx _ st resInit (le_refl _) hnb

/-- Claim C2 counterexample: a `hasMany`+`unique` text field named `id` is
present in the tree, yet the walk succeeds — the reserved-name skip runs
before the uniqueness check, refuting the claim's only-if direction. -/
theorem c2_counterexample_skipped_id :
    isBadManyUnique badIdF = true ∧
    traverseFields ctx0 [badIdF] st0 = .ok (st0, resInit) := by
  refine ⟨rfl, ?_⟩
  rw [traverse_singleton]
  exact goField_skip_id _ _ _ _ _ rfl

/-- Claim C2 witness: the corrected statement at concrete inputs — a
processed `hasMany`+`unique` text field aborts the pass, and a clean tree
yields no unsupported-uniqueness error. -/
theorem c2_unique_many_rejected_witness :
    isErr (traverseFields ctx0 ([] ++ badManyF :: []) st0) = true ∧
    isUniqueManyErrE (traverseFields ctx0 [plainF "title" (.text false)] st0) = false := by
  constructor
  · exact c2_unique_many_rejected.1 ctx0 [] [] badManyF st0 rfl (by decide) rfl
  · exact c2_unique_many_rejected.2 [plainF "title" (.text false)] ctx0 st0
      (by simp [fieldsNoBad, fieldNoBad, plainF, tyNoBad])
